import Mathlib

/-!
Shallow embedding of the TgAssistant resumable job pipeline engine
(worker retry loop, stage orchestrators, job store, batch coordinator,
index builder) together with theorems checking the specification
claims against it.  Every definition is translated from the Python
source under app/ ; file and line references are given in the doc
comments.
-/

namespace TgAssistant

/-! ### Worker retry loop (app/queue/worker.py, Worker.process lines 74-206)

One iteration of the for-loop over attempts is abstracted by the outcome
of its try-body: the dispatched orchestrator either returns a result,
raises one of the NON_RETRYABLE errors (worker.py lines 24-29), raises a
kind-tagged stage error (PipelineError / IngestError / CollectorError /
ExternalCollectorError, all carrying a step attribute), or raises an
unexpected exception. -/

/-- Outcome of the try-body of one attempt of Worker.process. -/
inductive AttemptOutcome
  | success (res : String)
  | nonRetryable (ename msg st : String)
  | stageError (ename msg st : String)
  | unexpected (ename msg : String)
deriving DecidableEq

/-- Observable side effects of Worker.process: db.increment_retry,
db.log_error, db.update_job_status(job_id, "error", last_error=msg),
and time.sleep. -/
inductive WEv
  | incRetry
  | logErr (ename msg st : String)
  | setStatusError (lastError : String)
  | sleep (sec : ℚ)
deriving DecidableEq

/-- The for-loop of Worker.process (worker.py lines 94-206), written by
recursion on the number of remaining loop iterations; the python loop is
for attempt in range(1, max_attempts + 1), so iteration at a given
attempt has remaining = max_attempts - attempt + 1, and the guard
attempt >= max_attempts of the source is remaining = 1.  Falling off the
end of the loop returns None (line 206). -/
def wloop (oc : Nat → AttemptOutcome) (backoff : ℚ) :
    Nat → Nat → List WEv × Option String
  | _, 0 => ([], none)
  | attempt, remaining + 1 =>
    match oc attempt with
    | .success r => ([], some r)
    | .nonRetryable en m st => ([.logErr en m st, .setStatusError m], none)
    | .stageError en m st =>
      if remaining = 0 then
        ([.incRetry, .logErr en m st, .setStatusError m], none)
      else
        let rest := wloop oc backoff (attempt + 1) remaining
        (.incRetry :: .logErr en m st :: .sleep (backoff * 2 ^ (attempt - 1)) :: rest.1,
         rest.2)
    | .unexpected en m =>
      if remaining = 0 then
        ([.incRetry, .logErr en m "unknown", .setStatusError m], none)
      else
        let rest := wloop oc backoff (attempt + 1) remaining
        (.incRetry :: .logErr en m "unknown" :: .sleep (backoff * 2 ^ (attempt - 1)) :: rest.1,
         rest.2)

/-- Worker.process for a job, starting at attempt 1 with
max_attempts = cfg.max_retries and backoff = cfg.retry_backoff_sec. -/
def workerProcess (oc : Nat → AttemptOutcome) (maxRetries : Nat) (backoff : ℚ) :
    List WEv × Option String :=
  wloop oc backoff 1 maxRetries

/-- Worker.process starting from a given attempt number (the loop still
has maxRetries + 1 - attempt iterations left). -/
def processFromAttempt (oc : Nat → AttemptOutcome) (maxRetries : Nat) (backoff : ℚ)
    (attempt : Nat) : List WEv × Option String :=
  wloop oc backoff attempt (maxRetries + 1 - attempt)

/-- Every attempt of Worker.process that errors emits exactly one
db.log_error call, and a successful attempt emits none, so the number of
execution attempts of one call is the count of log events plus one if a
result was returned. -/
def attemptsUsed (p : List WEv × Option String) : Nat :=
  p.1.countP (fun e => match e with | .logErr _ _ _ => true | _ => false) +
    (if p.2.isSome then 1 else 0)

/-- The backoff sleeps of a Worker.process trace, in order. -/
def sleepsOf (evs : List WEv) : List ℚ :=
  evs.filterMap (fun e => match e with | .sleep q => some q | _ => none)

/-- The retryable classification of an attempt outcome: stage errors and
unexpected errors re-enter the loop, carrying their message. -/
def retryableMsg : AttemptOutcome → Option String
  | .stageError _ m _ => some m
  | .unexpected _ m => some m
  | _ => none

/-! ### Python exception taxonomy used by the pipeline

From app/pipeline/downloader.py (AccessDeniedError, MediaNotFoundError,
UnsupportedMediaError, MediaLimitExceededError), the per-orchestrator
stage errors, and the built-in exceptions raised by the slips under
examination. -/

/-- Equality on collaborator results is decidable. -/
instance instDecEqExcept {ε α : Type} [DecidableEq ε] [DecidableEq α] :
    DecidableEq (Except ε α) := fun x y =>
  match x, y with
  | .ok a, .ok b =>
    if h : a = b then isTrue (by rw [h])
    else isFalse (fun hc => h (by injection hc))
  | .error a, .error b =>
    if h : a = b then isTrue (by rw [h])
    else isFalse (fun hc => h (by injection hc))
  | .ok _, .error _ => isFalse (fun hc => Except.noConfusion hc)
  | .error _, .ok _ => isFalse (fun hc => Except.noConfusion hc)

/-- Exceptions of the pipeline, as they cross the collaborator
boundaries. -/
inductive PyErr
  | accessDenied (m : String)
  | mediaNotFound (m : String)
  | unsupportedMedia (m : String)
  | mediaLimitExceeded (m : String)
  | collectorError (m st : String)
  | externalCollectorError (m st : String)
  | ingestError (m st : String)
  | importError (m : String)
  | typeError (m : String)
  | attributeError (m : String)
  | integrityError (m : String)
deriving DecidableEq

/-! ### Filesystem artifacts and orchestrator side effects

The files each orchestrator writes into the deterministic output
directory of a job.  Attachments carry their basename; they live in the
attachments/ (or images/, docs/) subdirectory and are therefore distinct
from every top-level artifact file. -/

/-- Names of the files written into the output directory of one job. -/
inductive FileName
  | textTxt
  | transcriptTxt
  | metaJson
  | manifestJson
  | descriptionTxt
  | attachment (basename : String)
deriving DecidableEq

/-- Observable side effects of an orchestrator run, in program order. -/
inductive Ev
  | dbStatus (s : String)
  | notify (s : String)
  | dbSaveExport (etype dir : String)
  | dbSaveTranscript
  | fetchMessage
  | fetchAlbum
  | downloadMedia
  | fetchInfo
  | downloadVideo
  | transcribe
  | mkdir (d : String)
  | write (f : FileName)
deriving DecidableEq

/-- Acquisition, transcription and other network or compute calls among
the events (the calls that the idempotent fast path must not make). -/
def isAcquisitionEv : Ev → Bool
  | .fetchMessage => true
  | .fetchAlbum => true
  | .downloadMedia => true
  | .fetchInfo => true
  | .downloadVideo => true
  | .transcribe => true
  | _ => false

/-- The sequence of files a trace writes, in order. -/
def writesOf (evs : List Ev) : List FileName :=
  evs.filterMap (fun e => match e with | .write f => some f | _ => none)

/-- The crash-safety shape of a successful trace: the marker
manifest.json never occurs before the final write, and when anything was
written at all the final write is the marker. -/
def MarkerLast (ws : List FileName) : Prop :=
  (∀ f ∈ ws.dropLast, f ≠ FileName.manifestJson) ∧
    (ws = [] ∨ ws.getLast? = some FileName.manifestJson)

/-! ### Collect orchestrator (app/pipeline/collector.py, run lines 73-244)

The Telegram client, album lookup, media downloads and the transcriber
are collaborators; their results for one run are collected in a
CollectEnv record.  Message payloads keep exactly the shape the run
inspects: text (python truthiness: None and the empty string are falsy)
and the media classification given by the classifier helpers
(_is_audio_video_media, _is_image, _is_document). -/

/-- Media classification of one message, per the classifier helpers. -/
inductive MediaKind
  | av
  | image
  | doc
  | other
deriving DecidableEq

/-- One Telegram message as inspected by the collect orchestrator. -/
structure Msg where
  text : Option String
  media : Option MediaKind
deriving DecidableEq

/-- Python truthiness of message.text. -/
def hasTextOf (m : Msg) : Bool :=
  match m.text with
  | none => false
  | some s => !s.isEmpty

/-- Result of fetching the message through the client (collector.py
lines 111-121: AccessDenied and MediaNotFound re-raise, any other
exception becomes CollectorError with step fetch, and a missing message
becomes MediaNotFoundError). -/
inductive FetchOutcome
  | accessDenied (m : String)
  | notFound (m : String)
  | failed (m : String)
  | fetched (msg : Option Msg)
deriving DecidableEq

/-- One downloaded attachment recorded by _download_media. -/
structure FileEntry where
  filename : String
  isAv : Bool
deriving DecidableEq

/-- Result of _download_media for one message (collector.py lines
169-181: MediaLimitExceededError re-raises, any other exception becomes
CollectorError with step download_media). -/
inductive DlOutcome
  | limitExceeded (m : String)
  | failed (m : String)
  | got (files : List FileEntry)
deriving DecidableEq

/-- Collaborator results for one collect run. -/
structure CollectEnv where
  manifestExists : Bool
  hasCollectedExport : Bool
  fetch : FetchOutcome
  album : Except String (List Msg)
  download : Nat → DlOutcome
  transcription : Except String (String × Nat)

/-- The download loop over the messages that carry media (collector.py
lines 170-181), downloading each in turn and stopping at the first
error; each downloaded file lands in attachments/. -/
def dlLoop (dl : Nat → DlOutcome) : Nat → Nat → List Ev × Except PyErr (List FileEntry)
  | _, 0 => ([], .ok [])
  | i, n + 1 =>
    match dl i with
    | .limitExceeded m => ([.downloadMedia], .error (.mediaLimitExceeded m))
    | .failed m => ([.downloadMedia], .error (.collectorError m "download_media"))
    | .got files =>
      let rest := dlLoop dl (i + 1) n
      (Ev.downloadMedia :: files.map (fun f => Ev.write (.attachment f.filename)) ++ rest.1,
       rest.2.map (fun l => files ++ l))

/-- The album resolution (collector.py lines 123-128 together with
_fetch_album lines 276-295): on any album error the single message is
used, and an empty album result also falls back to the message. -/
def albumMessages (album : Except String (List Msg)) (msg : Msg) : List Msg :=
  match album with
  | .error _ => [msg]
  | .ok l => if l.isEmpty then [msg] else l

/-- The content-typing chain of collector.py lines 130-148, returning
none for an empty message. -/
def collectMessageType (msgs : List Msg) : Option String :=
  let hasText := msgs.any hasTextOf
  let hasAv := msgs.any (fun m => m.media = some MediaKind.av)
  let hasImages := msgs.any (fun m => m.media = some MediaKind.image)
  let hasDocs := msgs.any (fun m => m.media = some MediaKind.doc)
  if hasAv then some "audio_video"
  else if hasImages && hasDocs then some "mixed"
  else if hasImages then some "text_with_images"
  else if hasDocs then some "text_with_docs"
  else if hasText then some "text_only"
  else none

/-- The conditional text.txt write (collector.py lines 158-167 and
ingest_orchestrator.py lines 114-118). -/
def textWriteEvs (hasText : Bool) : List Ev :=
  if hasText then [Ev.write FileName.textTxt] else []

/-- The conditional description.txt write (external_collector.py lines
141-145). -/
def descriptionWriteEvs (descriptionEmpty : Bool) : List Ev :=
  if descriptionEmpty then [] else [Ev.write FileName.descriptionTxt]

/-- The conditional transcription block (collector.py lines 183-199 and
_transcribe_files lines 361-403): skipped without audio or video files,
otherwise one transcription and one db save per file followed by the
transcript.txt write; any failure becomes CollectorError with step
transcribe. -/
def collectTranscription (avFiles : List FileEntry)
    (t : Except String (String × Nat)) : List Ev × Except PyErr Unit :=
  if avFiles.isEmpty then ([], .ok ())
  else
    match t with
    | .error m =>
      ([Ev.dbStatus "transcribing", Ev.notify "transcribing", Ev.transcribe],
       .error (.collectorError m "transcribe"))
    | .ok _ =>
      ([Ev.dbStatus "transcribing", Ev.notify "transcribing"] ++
         avFiles.flatMap (fun _ => [Ev.transcribe, Ev.dbSaveTranscript]) ++
         [Ev.write FileName.transcriptTxt],
       .ok ())

/-- CollectorOrchestrator.run (collector.py lines 73-244): idempotency
check on manifest.json, analyze, fetch-and-album, content typing, text
save, media downloads, conditional transcription, meta.json, and the
completion marker manifest.json written last, followed by the export
row and the done status. -/
def collectorRun (env : CollectEnv) (fromStart : Bool) (dir : String) :
    List Ev × Except PyErr String :=
  if !fromStart && env.manifestExists then
    ([Ev.dbStatus "done"] ++
       (if env.hasCollectedExport then [] else [Ev.dbSaveExport "collected" dir]),
     .ok dir)
  else
    let evA : List Ev := [.dbStatus "analyzing", .notify "analyzing", .fetchMessage]
    match env.fetch with
    | .accessDenied m => (evA, .error (.accessDenied m))
    | .notFound m => (evA, .error (.mediaNotFound m))
    | .failed m => (evA, .error (.collectorError m "fetch"))
    | .fetched none => (evA, .error (.mediaNotFound "message not found or deleted"))
    | .fetched (some msg) =>
      let evB := evA ++ [Ev.fetchAlbum]
      let msgs := albumMessages env.album msg
      match collectMessageType msgs with
      | none => (evB, .error (.mediaNotFound "empty message: no text and no media"))
      | some _mt =>
        let evC := evB ++ [Ev.mkdir dir, Ev.dbStatus "collecting", Ev.notify "collecting"] ++
          textWriteEvs (msgs.any hasTextOf)
        let mediaCount := (msgs.filter (fun m => m.media.isSome)).length
        let dlr := dlLoop env.download 0 mediaCount
        match dlr.2 with
        | .error e => (evC ++ dlr.1, .error e)
        | .ok files =>
          let evD := evC ++ dlr.1
          let tr := collectTranscription (files.filter (fun f => f.isAv)) env.transcription
          match tr.2 with
          | .error e => (evD ++ tr.1, .error e)
          | .ok _ =>
            (evD ++ tr.1 ++
               [Ev.dbStatus "saving", Ev.notify "saving",
                Ev.write FileName.metaJson,
                Ev.write FileName.manifestJson,
                Ev.dbSaveExport "collected" dir,
                Ev.dbStatus "done", Ev.notify "done"],
             .ok dir)

/-! ### External collector (app/pipeline/external_collector.py, run lines 56-243) -/

/-- Metadata of a remote video as consumed by the run: duration and
filesize (the source reads filesize or filesize_approx or 0) and the
description text. -/
structure InfoDict where
  duration : Nat
  filesize : Nat
  description : String
deriving DecidableEq

/-- Result of _get_info (external_collector.py lines 94-117): a yt-dlp
DownloadError whose message may indicate an age restriction, any other
exception, or the extracted info (falsy info is rejected). -/
inductive InfoOutcome
  | ydlError (ageRestricted : Bool) (m : String)
  | failed (m : String)
  | got (info : Option InfoDict)
deriving DecidableEq

/-- One file present in attachments/ after the yt-dlp download, with the
image-suffix test of lines 294-298 precomputed. -/
structure ExtFile where
  filename : String
  isImageSuffix : Bool
  size : Nat
deriving DecidableEq

/-- Result of the yt-dlp download call (lines 152-163). -/
inductive VideoDlOutcome
  | ydlError (m : String)
  | failed (m : String)
  | got (files : List ExtFile)
deriving DecidableEq

/-- Collaborator results for one external run. -/
structure ExternalEnv where
  ytdlpAvailable : Bool
  manifestExists : Bool
  hasCollectedExport : Bool
  info : InfoOutcome
  download : VideoDlOutcome
  transcription : Except String (String × Nat)

/-- ExternalCollectorOrchestrator.run (external_collector.py lines
56-243): yt-dlp availability check, idempotency check on manifest.json,
info fetch with limit checks, description save, video download with
video-file selection, transcription, meta.json, and the completion
marker manifest.json written last, followed by the export row and the
done status. -/
def externalRun (env : ExternalEnv) (maxDurationSec maxFileMb : Nat)
    (fromStart : Bool) (dir : String) : List Ev × Except PyErr String :=
  if !env.ytdlpAvailable then
    ([], .error (.importError "yt-dlp is not installed"))
  else if !fromStart && env.manifestExists then
    ([Ev.dbStatus "done"] ++
       (if env.hasCollectedExport then [] else [Ev.dbSaveExport "collected" dir]),
     .ok dir)
  else
    let evA : List Ev := [.dbStatus "analyzing", .notify "analyzing", .fetchInfo]
    match env.info with
    | .ydlError age m =>
      (evA, .error (.externalCollectorError
        (if age then "age-restricted video, set YTDLP_COOKIES_FILE" else m) "fetch_info"))
    | .failed m => (evA, .error (.externalCollectorError m "fetch_info"))
    | .got none => (evA, .error (.externalCollectorError "video not found" "fetch_info"))
    | .got (some info) =>
      if maxDurationSec < info.duration then
        (evA, .error (.mediaLimitExceeded "video too long"))
      else if info.filesize ≠ 0 ∧ maxFileMb * 1024 * 1024 < info.filesize then
        (evA, .error (.mediaLimitExceeded "file too large"))
      else
        let evB := evA ++ [Ev.mkdir dir, Ev.mkdir (dir ++ "/attachments")] ++
          descriptionWriteEvs info.description.isEmpty
        let evC := evB ++ [Ev.dbStatus "downloading", Ev.notify "downloading", Ev.downloadVideo]
        match env.download with
        | .ydlError m => (evC, .error (.externalCollectorError m "download"))
        | .failed m => (evC, .error (.externalCollectorError m "download"))
        | .got files =>
          let evD := evC ++ files.map (fun f => Ev.write (.attachment f.filename))
          let videoFiles := files.filter (fun f => !f.isImageSuffix)
          if videoFiles.isEmpty then
            (evD, .error (.externalCollectorError "video file not found after download" "download"))
          else
            let evE := evD ++ [Ev.dbStatus "transcribing", Ev.notify "transcribing", Ev.transcribe]
            match env.transcription with
            | .error m => (evE, .error (.externalCollectorError m "transcribe"))
            | .ok _ =>
              (evE ++
                 [Ev.write FileName.transcriptTxt, Ev.dbSaveTranscript,
                  Ev.dbStatus "saving", Ev.notify "saving",
                  Ev.write FileName.metaJson,
                  Ev.write FileName.manifestJson,
                  Ev.dbSaveExport "collected" dir,
                  Ev.dbStatus "done", Ev.notify "done"],
               .ok dir)

/-! ### Ingest orchestrator (app/pipeline/ingest_orchestrator.py, run lines 62-147)

Its completion marker is meta.json and its export type is ingest_wiki. -/

/-- Collaborator results for one ingest run. -/
structure IngestEnv where
  metaExists : Bool
  hasWikiExport : Bool
  fetch : FetchOutcome
  download : DlOutcome

/-- IngestOrchestrator.run (ingest_orchestrator.py lines 62-147):
idempotency check on meta.json, fetch, text save, media download, then
meta.json, the export row and the done status. -/
def ingestRun (env : IngestEnv) (fromStart : Bool) (dir : String) :
    List Ev × Except PyErr String :=
  if !fromStart && env.metaExists then
    ([Ev.dbStatus "done"] ++
       (if env.hasWikiExport then [] else [Ev.dbSaveExport "ingest_wiki" dir]),
     .ok dir)
  else
    let evA : List Ev := [.dbStatus "collecting", .notify "collecting", .fetchMessage]
    match env.fetch with
    | .accessDenied m => (evA, .error (.accessDenied m))
    | .notFound m => (evA, .error (.mediaNotFound m))
    | .failed m => (evA, .error (.ingestError m "fetch"))
    | .fetched none => (evA, .error (.mediaNotFound "message not found or deleted"))
    | .fetched (some msg) =>
      let evB := evA ++ [Ev.mkdir dir] ++
        (if hasTextOf msg then [Ev.write FileName.textTxt] else [])
      let dlr : List Ev × Except PyErr (List FileEntry) :=
        match msg.media with
        | none => ([], .ok [])
        | some _ =>
          match env.download with
          | .limitExceeded m => ([.downloadMedia], .error (.ingestError m "download_media"))
          | .failed m => ([.downloadMedia], .error (.ingestError m "download_media"))
          | .got files =>
            (Ev.downloadMedia :: files.map (fun f => Ev.write (.attachment f.filename)),
             .ok files)
      match dlr.2 with
      | .error e => (evB ++ dlr.1, .error e)
      | .ok _ =>
        (evB ++ dlr.1 ++
           [Ev.write FileName.metaJson,
            Ev.dbSaveExport "ingest_wiki" dir,
            Ev.dbStatus "done", Ev.notify "done"],
         .ok dir)

/-! ### Job store (app/db/database.py and app/db/models.py)

One row of the jobs table, with the columns the engine reads and
writes.  The url column carries a UNIQUE constraint (models.py line 14);
sqlite rejects a second insert of the same url with an IntegrityError. -/

/-- One row of the jobs table. -/
structure JobRec where
  id : String
  url : String
  status : String
  retryCount : Nat
  jobType : String
  lastError : Option String
deriving DecidableEq

/-- The jobs table, in insertion order. -/
abbrev JobStore := List JobRec

/-- Database.get_job_by_url (database.py lines 80-85). -/
def dbGetJobByUrl (s : JobStore) (url : String) : Option JobRec :=
  s.find? (fun j => j.url = url)

/-- Database.create_job (database.py lines 94-102): inserts a pending
row; the UNIQUE constraint on url rejects a duplicate reference. -/
def dbCreateJob (s : JobStore) (newId url jobType : String) :
    Except PyErr (JobStore × String) :=
  if s.any (fun j => j.url = url) then
    .error (.integrityError "UNIQUE constraint failed: jobs.url")
  else
    .ok (s ++ [{ id := newId, url := url, status := "pending", retryCount := 0,
                 jobType := jobType, lastError := none }], newId)

/-- Database.update_job_status restricted to a plain status change. -/
def dbSetStatus (s : JobStore) (jobId status : String) : JobStore :=
  s.map (fun j => if j.id = jobId then { j with status := status } else j)

/-- Database.update_job_status with the retry_count keyword, as the
batch runner uses it to reset an errored job. -/
def dbSetStatusRetry (s : JobStore) (jobId status : String) (rc : Nat) : JobStore :=
  s.map (fun j => if j.id = jobId then { j with status := status, retryCount := rc } else j)

/-- The methods defined on the Database class (database.py lines
26-293), in source order; python resolves any other attribute access on
a Database object to an AttributeError. -/
def databaseMethods : List String :=
  ["connect", "close", "conn", "_read", "_write", "migrate",
   "get_job_by_url", "get_job_by_id", "create_job", "update_job_status",
   "increment_retry", "list_jobs",
   "save_asset", "mark_asset_deleted", "get_asset",
   "save_transcript", "get_transcript",
   "save_summary", "get_summary",
   "save_export", "get_exports",
   "log_error"]

/-- The message of the AttributeError raised when db.create_external_job
is called (batch_runner.py line 192, handlers.py line 117, run.py line
278) while the Database class defines no such method. -/
def attributeErrorCreateExternalJob : String :=
  "Database object has no attribute create_external_job"

/-! ### Worker job-type resolution (app/queue/worker.py, _determine_job_type lines 42-72) -/

/-- The classifier verdicts (app/pipeline/classifier.py MessageType). -/
inductive MessageTypeM
  | audioVideo
  | textOnly
  | textWithImages
  | textWithDocs
deriving DecidableEq

/-- Observable side effects of _determine_job_type: the classify call
(the one payload inspection) and the persisting of the job type. -/
inductive CEv
  | classifyCalled
  | dbSetJobType (jt : String)
deriving DecidableEq

/-- Worker._determine_job_type (worker.py lines 42-72), over the job
type persisted on the job record and the classifier verdict for the
message (an empty string stands for a falsy job_type).  A classify
ValueError is re-raised as MediaNotFoundError (lines 59-62). -/
def determineJobType (jobType : String) (classifyRes : Except String MessageTypeM) :
    List CEv × Except PyErr String :=
  if jobType = "collect" ∨ jobType = "external" then ([], .ok jobType)
  else if jobType ≠ "" ∧ jobType ≠ "media" then ([], .ok jobType)
  else
    match classifyRes with
    | .error m => ([.classifyCalled], .error (.mediaNotFound m))
    | .ok mt =>
      let jt := if mt = MessageTypeM.audioVideo then "media" else "ingest"
      ([.classifyCalled, .dbSetJobType jt], .ok jt)

/-- The in-order job statuses that the media orchestrator run sets while
processing a job (app/pipeline/orchestrator.py lines 76, 105, 159, 187,
221). -/
def mediaOrchestratorStatusUpdates : List String :=
  ["downloading", "transcribing", "summarizing", "exporting", "done"]

/-! ### Worker construction (app/queue/worker.py, __init__ lines 33-40)

Worker.__init__ constructs the four orchestrators, passing progress_cb
as a keyword argument to each.  Orchestrator.__init__
(app/pipeline/orchestrator.py line 38) accepts only (self, cfg, db), so
python rejects the very first of those calls with a TypeError for the
unexpected keyword argument. -/

/-- The engine configuration fields the embedded components read. -/
structure ConfigM where
  maxRetries : Nat
  retryBackoffSec : ℚ
  outputDir : String
deriving DecidableEq

/-- Python keyword-argument binding for a call with no surplus
parameters: every keyword must name a declared parameter. -/
def pyCallKw (declared : List String) (kwargs : List String) (errMsg : String) :
    Except PyErr Unit :=
  if kwargs.all (fun k => declared.contains k) then .ok ()
  else .error (.typeError errMsg)

/-- Parameters of Orchestrator.__init__ besides self (orchestrator.py
line 38). -/
def orchestratorInitParams : List String := ["cfg", "db"]

/-- The keyword arguments Worker.__init__ passes to Orchestrator
(worker.py line 37) beyond the positional cfg and db. -/
def workerInitOrchestratorKwargs : List String := ["progress_cb"]

/-- Message of the TypeError the Orchestrator call raises. -/
def workerInitTypeError : String :=
  "Orchestrator.__init__ got an unexpected keyword argument progress_cb"

/-- Worker.__init__ (worker.py lines 33-40): its first orchestrator
construction already fails, whatever the configuration, database and
progress callback passed in. -/
def workerInit (_cfg : ConfigM) (_db : JobStore) (_progressCb : Option String) :
    Except PyErr Unit :=
  pyCallKw orchestratorInitParams workerInitOrchestratorKwargs workerInitTypeError

/-! ### Batch coordinator (app/batch/batch_runner.py)

Worker.process is the collaborator at the loop boundary; its behavior
for one job is an outcome: a returned result dict (carrying the artifact
directory), a returned None, or a raised exception.  Worker.process
never inserts a job row (worker.py only calls update_job_status,
increment_retry and log_error), so the store threads through the loop
unchanged by the worker itself. -/

/-- Parsed link kind of a note entry (app/utils/url_parser.py). -/
inductive LinkKind
  | telegram
  | external
deriving DecidableEq

/-- One entry of a parsed batch note (app/batch/note_parser.py,
NoteEntry): raw url, label, grouping key, and the parse result (none for
an invalid url). -/
structure NEntry where
  url : String
  label : String
  group : String
  link : Option LinkKind
deriving DecidableEq

/-- What one worker.process call does for a job (batch_runner.py line
200). -/
inductive ProcBehavior
  | returns (r : Option String)
  | raises (m : String)
deriving DecidableEq

/-- One BatchItemResult (batch_runner.py lines 25-34), flattened with
the fields of its entry. -/
structure BatchItem where
  index : Nat
  url : String
  label : String
  group : String
  success : Bool
  jobId : Option String
  error : Option String
  artifactDir : Option String
deriving DecidableEq

/-- Job-store side effects of _process_entry, in order. -/
inductive BEv
  | dbResetPending (jobId : String) (retryZero : Bool)
  | dbCreate (jobId : String)
  | dbCreateExternalAttempt
  | workerCall (jobId : String)
deriving DecidableEq

/-- The statuses _process_entry treats as already-processing
(batch_runner.py lines 172-173). -/
def batchInProgressStatuses : List String :=
  ["downloading", "transcribing", "exporting", "collecting", "analyzing", "saving"]

/-- The tail of _process_entry once a job id is settled (batch_runner.py
lines 196-216): invoke worker.process and fill the item from its
outcome; a returned None reads last_error back off the job row (the row
always has the key, so a NULL last_error is taken verbatim). -/
def peRunWorker (store : JobStore) (evs : List BEv) (base : BatchItem) (jobId : String)
    (proc : String → ProcBehavior) : JobStore × List BEv × BatchItem :=
  let item := { base with jobId := some jobId }
  match proc jobId with
  | .raises m => (store, evs ++ [.workerCall jobId], { item with error := some m })
  | .returns (some r) =>
    (store, evs ++ [.workerCall jobId], { item with success := true, artifactDir := some r })
  | .returns none =>
    let err :=
      match store.find? (fun j => j.id = jobId) with
      | none => some "Unknown error"
      | some j => j.lastError
    (store, evs ++ [.workerCall jobId], { item with error := err })

/-- BatchRunner._process_entry (batch_runner.py lines 146-222):
idempotency resolution against the job store by url, job creation for a
new reference (create_external_job is missing from the Database class,
so a new external reference ends in an AttributeError that the
surrounding except-Exception records on the item), then the worker
call.  findArtifact stands for _find_artifact_dir. -/
def processEntry (store : JobStore) (e : NEntry) (index : Nat) (fromStart : Bool)
    (newId : String) (proc : String → ProcBehavior)
    (findArtifact : String → Option String) : JobStore × List BEv × BatchItem :=
  let base : BatchItem :=
    { index := index, url := e.url, label := e.label, group := e.group,
      success := false, jobId := none, error := none, artifactDir := none }
  match dbGetJobByUrl store e.url with
  | some existing =>
    if !fromStart then
      if existing.status = "done" then
        (store, [],
         { base with success := true, jobId := some existing.id,
                     artifactDir := findArtifact existing.id })
      else if batchInProgressStatuses.contains existing.status then
        (store, [],
         { base with jobId := some existing.id,
                     error := some ("Already processing (status: " ++ existing.status ++ ")") })
      else if existing.status = "error" then
        peRunWorker (dbSetStatusRetry store existing.id "pending" 0)
          [.dbResetPending existing.id true] base existing.id proc
      else
        peRunWorker store [] base existing.id proc
    else
      peRunWorker (dbSetStatus store existing.id "pending")
        [.dbResetPending existing.id false] base existing.id proc
  | none =>
    match e.link with
    | some .external =>
      (store, [.dbCreateExternalAttempt],
       { base with error := some attributeErrorCreateExternalJob })
    | _ =>
      match dbCreateJob store newId e.url "media" with
      | .error err =>
        (store, [],
         { base with error := some (match err with
             | .integrityError m => m
             | _ => "error") })
      | .ok (store1, jid) => peRunWorker store1 [.dbCreate jid] base jid proc

/-- The per-reference loop of BatchRunner.run (batch_runner.py lines
104-112) over the valid entries, numbering them from 1; every item
result is appended and the loop always continues. -/
def runLoopAux (proc : Nat → String → ProcBehavior) (newId : Nat → String)
    (findArtifact : String → Option String) (fromStart : Bool) :
    List NEntry → Nat → JobStore → JobStore × List BatchItem
  | [], _, store => (store, [])
  | e :: rest, idx, store =>
    let one := processEntry store e idx fromStart (newId idx) (proc idx) findArtifact
    let restRes := runLoopAux proc newId findArtifact fromStart rest (idx + 1) one.1
    (restRes.1, one.2.2 :: restRes.2)

/-- The valid entries of a note (batch_runner.py line 88). -/
def validEntries (note : List NEntry) : List NEntry :=
  note.filter (fun e => e.link.isSome)

/-- BatchRunner.run (batch_runner.py lines 70-144) up to index
building: filter the valid entries, return an empty result when none,
otherwise construct the shared Worker (which raises, per workerInit)
and only then drive the loop.  The client acquisition and disconnect
are collaborators assumed to succeed. -/
def batchRunFaithful (cfg : ConfigM) (store : JobStore) (note : List NEntry)
    (fromStart : Bool) (proc : Nat → String → ProcBehavior) (newId : Nat → String)
    (findArtifact : String → Option String) :
    Except PyErr (JobStore × List BatchItem) :=
  let valid := validEntries note
  if valid.isEmpty then .ok (store, [])
  else
    match workerInit cfg store none with
    | .error e => .error e
    | .ok _ => .ok (runLoopAux proc newId findArtifact fromStart valid 1 store)

/-- Count of successful items (BatchResult.succeeded, lines 48-50). -/
def succeededCount (items : List BatchItem) : Nat :=
  (items.filter (fun i => i.success)).length

/-- Count of failed items (BatchResult.failed, lines 52-54). -/
def failedCount (items : List BatchItem) : Nat :=
  (items.filter (fun i => !i.success)).length

/-! ### Index builder (app/batch/index_builder.py, build lines 40-139)

One IndexEntry per item, then grouping by the caller-supplied key in
first-seen order (python dict insertion order, _group_entries lines
131-139); INDEX.md and index.json render the same grouped structure. -/

/-- One entry of the batch index. -/
structure IndexEntryM where
  index : Nat
  url : String
  label : String
  groupKey : String
  status : String
deriving DecidableEq

/-- The IndexEntry built from one BatchItemResult (index_builder.py
lines 61-85). -/
def indexEntryOf (it : BatchItem) : IndexEntryM :=
  { index := it.index, url := it.url,
    label := if it.label.isEmpty then it.url else it.label,
    groupKey := it.group,
    status := if it.success then "done" else if it.error.isSome then "error" else "skipped" }

/-- The grouping key of an entry (_group_entries line 134: an empty
group falls into BASE). -/
def keyOf (e : IndexEntryM) : String :=
  if e.groupKey.isEmpty then "BASE" else e.groupKey

/-- One step of the grouping fold: append the entry to its group if the
key was seen, otherwise open a new group at the end. -/
def insertGrouped (acc : List (String × List IndexEntryM)) (e : IndexEntryM) :
    List (String × List IndexEntryM) :=
  if acc.any (fun p => p.1 = keyOf e) then
    acc.map (fun p => if p.1 = keyOf e then (p.1, p.2 ++ [e]) else p)
  else acc ++ [(keyOf e, [e])]

/-- _group_entries (index_builder.py lines 131-139): groups in
first-seen key order, entries kept in list order inside each group. -/
def groupEntries (es : List IndexEntryM) : List (String × List IndexEntryM) :=
  es.foldl insertGrouped []

/-- One step of first-seen deduplication. -/
def dedupStep (acc : List String) (k : String) : List String :=
  if acc.any (fun x => x = k) then acc else acc ++ [k]

/-- First-seen deduplication of a key sequence (the insertion order of
a python dict built by the grouping loop). -/
def dedupFirstSeen (ks : List String) : List String :=
  ks.foldl dedupStep []

/-- The grouped index built for the items of one batch (index.json and
INDEX.md both render exactly this structure). -/
def buildIndexGroups (items : List BatchItem) : List (String × List IndexEntryM) :=
  groupEntries (items.map indexEntryOf)

/-! ### Remaining store helpers and the CLI job-creation path -/

/-- Python attribute lookup on a Database object. -/
def dbMethodLookup (name : String) : Except PyErr String :=
  if databaseMethods.contains name then .ok name
  else .error (.attributeError ("Database object has no attribute " ++ name))

/-- The job-creation section of cmd_process_link (run.py lines 270-281)
for a reference with no existing row: external references go through the
missing create_external_job and telegram references through create_job. -/
def cliCreateJob (store : JobStore) (url : String) (isExternal : Bool) (newId : String) :
    Except PyErr (JobStore × String) :=
  if isExternal then
    match dbMethodLookup "create_external_job" with
    | .error e => .error e
    | .ok _ => dbCreateJob store newId url "external"
  else dbCreateJob store newId url "media"

/-- No two rows of the store share a url. -/
def UrlsNodup (s : JobStore) : Prop := (s.map (fun j => j.url)).Nodup

/-- Number of rows carrying a given url. -/
def countUrl (s : JobStore) (url : String) : Nat :=
  s.countP (fun j => j.url = url)

/-- Whether a batch event trace contains a worker.process invocation. -/
def hasWorkerCall (evs : List BEv) : Bool :=
  evs.any (fun e => match e with | .workerCall _ => true | _ => false)

/-! ### Concrete inputs used by the witnesses and counterexamples -/

/-- An attempt-outcome stream that always fails with a retryable stage
error. -/
def ocRetryW : Nat → AttemptOutcome :=
  fun k => .stageError "PipelineError" ("transient failure " ++ toString k) "download"

/-- An attempt-outcome stream whose first attempt raises a non-retryable
access-denied error. -/
def ocDeniedW : Nat → AttemptOutcome :=
  fun _ => .nonRetryable "AccessDeniedError" "no access to the channel" "download"

/-- A collect run environment whose completion marker already exists. -/
def cachedCollectEnv : CollectEnv :=
  { manifestExists := true, hasCollectedExport := false,
    fetch := .fetched none, album := .ok [],
    download := fun _ => .got [], transcription := .ok ("ru", 0) }

/-- An external run environment whose completion marker already exists. -/
def cachedExternalEnv : ExternalEnv :=
  { ytdlpAvailable := true, manifestExists := true, hasCollectedExport := true,
    info := .got none, download := .got [], transcription := .ok ("ru", 0) }

/-- An ingest run environment whose completion marker already exists. -/
def cachedIngestEnv : IngestEnv :=
  { metaExists := true, hasWikiExport := false,
    fetch := .fetched none, download := .got [] }

/-- A collect run environment that exercises the full pipeline: a
message with text and one audio attachment, downloaded and transcribed
without incident. -/
def fullCollectEnv : CollectEnv :=
  { manifestExists := false, hasCollectedExport := false,
    fetch := .fetched (some { text := some "hello", media := some MediaKind.av }),
    album := .ok [],
    download := fun _ => .got [{ filename := "voice.ogg", isAv := true }],
    transcription := .ok ("ru", 12) }

/-- An external run environment that exercises the full pipeline. -/
def fullExternalEnv : ExternalEnv :=
  { ytdlpAvailable := true, manifestExists := false, hasCollectedExport := false,
    info := .got (some { duration := 120, filesize := 50, description := "about" }),
    download := .got [{ filename := "clip.mp4", isImageSuffix := false, size := 50 },
                      { filename := "clip.jpg", isImageSuffix := true, size := 2 }],
    transcription := .ok ("ru", 40) }

/-- A store holding one job that the media orchestrator left mid-run in
the summarizing stage status. -/
def summarizingStore : JobStore :=
  [{ id := "j1", url := "https://t.me/c/100/11", status := "summarizing",
     retryCount := 0, jobType := "media", lastError := none }]

/-- The batch entry resubmitting the reference of that job. -/
def summarizingEntry : NEntry :=
  { url := "https://t.me/c/100/11", label := "talk", group := "",
    link := some LinkKind.telegram }

/-- A worker behavior that completes every job with an artifact. -/
def procOkW : String → ProcBehavior := fun _ => .returns (some "/out/collected/100/11")

/-- A per-index worker behavior that completes every job. -/
def procAllOk : Nat → String → ProcBehavior := fun _ _ => .returns (some "/art")

/-- A job row for the reference of summarizingEntry, in a given status. -/
def oneJob (status : String) : JobRec :=
  { id := "j1", url := "https://t.me/c/100/11", status := status,
    retryCount := 2, jobType := "media", lastError := some "boom" }

/-- A store holding one job for the reference of summarizingEntry, in a
given status. -/
def oneJobStore (status : String) : JobStore := [oneJob status]

/-- _find_artifact_dir stub returning no export row. -/
def findArtifactNone : String → Option String := fun _ => none

/-- Fresh job ids for the batch loop. -/
def newIdSeq : Nat → String := fun i => "job-" ++ toString i

/-- A configuration with the source defaults (config.py lines 36-37). -/
def cfgW : ConfigM := { maxRetries := 3, retryBackoffSec := 30, outputDir := "/out" }

/-- A batch note of three valid telegram references. -/
def noteThreeTg : List NEntry :=
  [{ url := "https://t.me/c/100/1", label := "a", group := "", link := some LinkKind.telegram },
   { url := "https://t.me/c/100/2", label := "b", group := "", link := some LinkKind.telegram },
   { url := "https://t.me/c/100/3", label := "c", group := "", link := some LinkKind.telegram }]

/-- A per-item worker behavior where exactly the second reference raises. -/
def procSecondRaises : Nat → String → ProcBehavior :=
  fun idx _ => if idx = 2 then .raises "unexpected boom" else .returns (some "/art")

/-- A batch note with one valid reference and one reference whose url
failed to parse (its link is None). -/
def noteOneInvalid : List NEntry :=
  [{ url := "https://t.me/c/100/7", label := "ok", group := "", link := some LinkKind.telegram },
   { url := "https://example.com/not-a-known-source", label := "bad", group := "", link := none }]

/-- A batch entry for a brand-new external reference. -/
def externalEntryW : NEntry :=
  { url := "https://www.youtube.com/watch?v=dQw4w9WgXcQ", label := "video", group := "",
    link := some LinkKind.external }

/-- A concrete index entry. -/
def ixe (i : Nat) (u g : String) : IndexEntryM :=
  { index := i, url := u, label := u, groupKey := g, status := "done" }

/-- Concrete index entries over two interleaved groups. -/
def esW : List IndexEntryM := [ixe 1 "u1" "g1", ixe 2 "u2" "g2", ixe 3 "u3" "g1"]

/-! ## Theorems -/

/-! ### General helper lemmas -/

theorem writesOf_append (l1 l2 : List Ev) :
    writesOf (l1 ++ l2) = writesOf l1 ++ writesOf l2 :=
  List.filterMap_append l1 l2 _

theorem markerLast_concat (ws : List FileName)
    (h : ∀ f ∈ ws, f ≠ FileName.manifestJson) :
    MarkerLast (ws ++ [FileName.manifestJson]) := by
  constructor
  · rw [List.dropLast_concat]
    exact h
  · exact Or.inr (List.getLast?_concat _)

theorem dlLoop_writes_attachment (dl : Nat → DlOutcome) :
    ∀ (n i : Nat), ∀ f ∈ writesOf (dlLoop dl i n).1, ∃ b, f = FileName.attachment b := by
  intro n
  induction n with
  | zero => intro i f hf; simp [dlLoop, writesOf] at hf
  | succ k ih =>
    intro i f hf
    unfold dlLoop at hf
    cases hdl : dl i with
    | limitExceeded m => rw [hdl] at hf; simp [writesOf] at hf
    | failed m => rw [hdl] at hf; simp [writesOf] at hf
    | got files =>
      rw [hdl] at hf
      simp only [writesOf, List.filterMap_cons, List.filterMap_append] at hf
      rcases List.mem_append.mp hf with hl | hr
      · rcases List.mem_filterMap.mp hl with ⟨e, he, hfe⟩
        rcases List.mem_map.mp he with ⟨fe, _, rfl⟩
        simp at hfe
        exact ⟨fe.filename, hfe.symm⟩
      · exact ih (i + 1) f hr

/-! ### Claim C1 -/

/-- Claim C1: when from_start is false and the completion marker file
(manifest.json for the collect and external kinds, meta.json for
ingest) already exists in the deterministic output directory, run marks
the job done, inserts an export row exactly when none of the matching
type exists, and returns the cached artifact directory, emitting no
acquisition, transcription, or other network or compute event. -/
theorem run_short_circuits_on_marker :
    (∀ (env : CollectEnv) (dir : String), env.manifestExists = true →
      collectorRun env false dir =
        ([Ev.dbStatus "done"] ++
           (if env.hasCollectedExport then [] else [Ev.dbSaveExport "collected" dir]),
         .ok dir) ∧
      ((collectorRun env false dir).1.all (fun e => !isAcquisitionEv e)) = true) ∧
    (∀ (env : ExternalEnv) (maxD maxF : Nat) (dir : String),
      env.ytdlpAvailable = true → env.manifestExists = true →
      externalRun env maxD maxF false dir =
        ([Ev.dbStatus "done"] ++
           (if env.hasCollectedExport then [] else [Ev.dbSaveExport "collected" dir]),
         .ok dir) ∧
      ((externalRun env maxD maxF false dir).1.all (fun e => !isAcquisitionEv e)) = true) ∧
    (∀ (env : IngestEnv) (dir : String), env.metaExists = true →
      ingestRun env false dir =
        ([Ev.dbStatus "done"] ++
           (if env.hasWikiExport then [] else [Ev.dbSaveExport "ingest_wiki" dir]),
         .ok dir) ∧
      ((ingestRun env false dir).1.all (fun e => !isAcquisitionEv e)) = true) := by
  refine ⟨?_, ?_, ?_⟩
  · intro env dir h
    constructor
    · simp [collectorRun, h]
    · cases hx : env.hasCollectedExport <;> simp [collectorRun, h, hx, isAcquisitionEv]
  · intro env maxD maxF dir hy h
    constructor
    · simp [externalRun, hy, h]
    · cases hx : env.hasCollectedExport <;> simp [externalRun, hy, h, hx, isAcquisitionEv]
  · intro env dir h
    constructor
    · simp [ingestRun, h]
    · cases hx : env.hasWikiExport <;> simp [ingestRun, h, hx, isAcquisitionEv]

/-- Witness for C1 at concrete cached environments. -/
theorem run_short_circuits_on_marker_witness :
    (collectorRun cachedCollectEnv false "/out/collected/100/11" =
      ([Ev.dbStatus "done", Ev.dbSaveExport "collected" "/out/collected/100/11"],
       .ok "/out/collected/100/11")) ∧
    (externalRun cachedExternalEnv 7200 2000 false "/out/collected/external/y/v" =
      ([Ev.dbStatus "done"], .ok "/out/collected/external/y/v")) ∧
    (ingestRun cachedIngestEnv false "/out/wiki/100/11" =
      ([Ev.dbStatus "done", Ev.dbSaveExport "ingest_wiki" "/out/wiki/100/11"],
       .ok "/out/wiki/100/11")) := by
  refine ⟨?_, ?_, ?_⟩
  · have h := run_short_circuits_on_marker.1 cachedCollectEnv "/out/collected/100/11" rfl
    simpa [cachedCollectEnv] using h.1
  · have h := run_short_circuits_on_marker.2.1 cachedExternalEnv 7200 2000
      "/out/collected/external/y/v" rfl rfl
    simpa [cachedExternalEnv] using h.1
  · have h := run_short_circuits_on_marker.2.2 cachedIngestEnv "/out/wiki/100/11" rfl
    simpa [cachedIngestEnv] using h.1

/-! ### Claim C3 -/

theorem attemptsUsed_wloop_le (oc : Nat → AttemptOutcome) (b : ℚ) :
    ∀ (rem att : Nat), attemptsUsed (wloop oc b att rem) ≤ rem := by
  intro rem
  induction rem with
  | zero => intro att; simp [wloop, attemptsUsed]
  | succ r ih =>
    intro att
    rcases h : oc att with res | ⟨en, m, st⟩ | ⟨en, m, st⟩ | ⟨en, m⟩
    · simp [wloop, h, attemptsUsed]
    · simp [wloop, h, attemptsUsed, List.countP_cons]
    · by_cases hr : r = 0
      · subst hr
        simp [wloop, h, attemptsUsed, List.countP_cons]
      · have ihh := ih (att + 1)
        simp only [wloop, h, if_neg hr]
        simp [attemptsUsed, List.countP_cons] at ihh ⊢
        omega
    · by_cases hr : r = 0
      · subst hr
        simp [wloop, h, attemptsUsed, List.countP_cons]
      · have ihh := ih (att + 1)
        simp only [wloop, h, if_neg hr]
        simp [attemptsUsed, List.countP_cons] at ihh ⊢
        omega

theorem sleepsOf_wloop_shape (oc : Nat → AttemptOutcome) (b : ℚ) :
    ∀ (rem att : Nat), 1 ≤ att →
      ∃ mm, sleepsOf (wloop oc b att rem).1 =
        (List.range' (att - 1) mm).map (fun i => b * 2 ^ i) := by
  intro rem
  induction rem with
  | zero => intro att _; exact ⟨0, by simp [wloop, sleepsOf]⟩
  | succ r ih =>
    intro att hatt
    rcases h : oc att with res | ⟨en, m, st⟩ | ⟨en, m, st⟩ | ⟨en, m⟩
    · exact ⟨0, by simp [wloop, h, sleepsOf]⟩
    · exact ⟨0, by simp [wloop, h, sleepsOf]⟩
    · by_cases hr : r = 0
      · subst hr; exact ⟨0, by simp [wloop, h, sleepsOf]⟩
      · obtain ⟨mm, hmm⟩ := ih (att + 1) (by omega)
        refine ⟨mm + 1, ?_⟩
        simp only [sleepsOf] at hmm ⊢
        simp only [wloop, h, if_neg hr, List.filterMap_cons]
        rw [List.range'_succ]
        have e1 : att - 1 + 1 = att := by omega
        rw [e1, List.map_cons]
        simp only [Nat.add_sub_cancel] at hmm
        rw [hmm]
    · by_cases hr : r = 0
      · subst hr; exact ⟨0, by simp [wloop, h, sleepsOf]⟩
      · obtain ⟨mm, hmm⟩ := ih (att + 1) (by omega)
        refine ⟨mm + 1, ?_⟩
        simp only [sleepsOf] at hmm ⊢
        simp only [wloop, h, if_neg hr, List.filterMap_cons]
        rw [List.range'_succ]
        have e1 : att - 1 + 1 = att := by omega
        rw [e1, List.map_cons]
        simp only [Nat.add_sub_cancel] at hmm
        rw [hmm]

theorem wloop_all_retryable (oc : Nat → AttemptOutcome) (b : ℚ) :
    ∀ (rem att : Nat), 1 ≤ rem →
      (∀ j, att ≤ j → j < att + rem → (retryableMsg (oc j)).isSome = true) →
      (wloop oc b att rem).2 = none ∧
      (wloop oc b att rem).1.getLast? =
        some (WEv.setStatusError ((retryableMsg (oc (att + rem - 1))).getD "")) := by
  intro rem
  induction rem with
  | zero => intro att h; omega
  | succ r ih =>
    intro att _ hall
    have hAtt : (retryableMsg (oc att)).isSome = true := hall att le_rfl (by omega)
    rcases h : oc att with res | ⟨en, m, st⟩ | ⟨en, m, st⟩ | ⟨en, m⟩
    · rw [h] at hAtt; simp [retryableMsg] at hAtt
    · rw [h] at hAtt; simp [retryableMsg] at hAtt
    · by_cases hr : r = 0
      · subst hr
        refine ⟨by simp [wloop, h], ?_⟩
        simp [wloop, h, retryableMsg]
      · obtain ⟨ih1, ih2⟩ := ih (att + 1) (by omega)
          (fun j hj1 hj2 => hall j (by omega) (by omega))
        refine ⟨by simp only [wloop, h, if_neg hr]; exact ih1, ?_⟩
        simp only [wloop, h, if_neg hr]
        have hsplit :
            (WEv.incRetry :: WEv.logErr en m st ::
              WEv.sleep (b * 2 ^ (att - 1)) :: (wloop oc b (att + 1) r).1) =
            [WEv.incRetry, WEv.logErr en m st, WEv.sleep (b * 2 ^ (att - 1))] ++
              (wloop oc b (att + 1) r).1 := rfl
        rw [hsplit, List.getLast?_append, ih2]
        have e : att + 1 + r - 1 = att + (r + 1) - 1 := by omega
        rw [e]
        rfl
    · by_cases hr : r = 0
      · subst hr
        refine ⟨by simp [wloop, h], ?_⟩
        simp [wloop, h, retryableMsg]
      · obtain ⟨ih1, ih2⟩ := ih (att + 1) (by omega)
          (fun j hj1 hj2 => hall j (by omega) (by omega))
        refine ⟨by simp only [wloop, h, if_neg hr]; exact ih1, ?_⟩
        simp only [wloop, h, if_neg hr]
        have hsplit :
            (WEv.incRetry :: WEv.logErr en m "unknown" ::
              WEv.sleep (b * 2 ^ (att - 1)) :: (wloop oc b (att + 1) r).1) =
            [WEv.incRetry, WEv.logErr en m "unknown", WEv.sleep (b * 2 ^ (att - 1))] ++
              (wloop oc b (att + 1) r).1 := rfl
        rw [hsplit, List.getLast?_append, ih2]
        have e : att + 1 + r - 1 = att + (r + 1) - 1 := by omega
        rw [e]
        rfl

/-- Claim C3: Worker.process makes at most max_retries attempts; a
retryable stage error or unexpected error increments the retry counter
and logs the error with its stage tag (unknown for unexpected errors),
then sleeps backoff times 2 to the power attempt minus 1 when attempts
remain; the waits double each attempt and strictly increase for a
positive backoff; when attempts are exhausted the worker sets the job
status to error with the last attempt message and returns none. -/
theorem worker_retry_backoff :
    (∀ (oc : Nat → AttemptOutcome) (maxRetries : Nat) (b : ℚ),
      attemptsUsed (workerProcess oc maxRetries b) ≤ maxRetries) ∧
    (∀ (oc : Nat → AttemptOutcome) (maxRetries : Nat) (b : ℚ),
      workerProcess oc maxRetries b = processFromAttempt oc maxRetries b 1) ∧
    (∀ (oc : Nat → AttemptOutcome) (maxRetries : Nat) (b : ℚ) (k : Nat) (en m st : String),
      1 ≤ k → k < maxRetries → oc k = .stageError en m st →
      processFromAttempt oc maxRetries b k =
        (WEv.incRetry :: WEv.logErr en m st :: WEv.sleep (b * 2 ^ (k - 1)) ::
           (processFromAttempt oc maxRetries b (k + 1)).1,
         (processFromAttempt oc maxRetries b (k + 1)).2)) ∧
    (∀ (oc : Nat → AttemptOutcome) (maxRetries : Nat) (b : ℚ) (k : Nat) (en m : String),
      1 ≤ k → k < maxRetries → oc k = .unexpected en m →
      processFromAttempt oc maxRetries b k =
        (WEv.incRetry :: WEv.logErr en m "unknown" :: WEv.sleep (b * 2 ^ (k - 1)) ::
           (processFromAttempt oc maxRetries b (k + 1)).1,
         (processFromAttempt oc maxRetries b (k + 1)).2)) ∧
    (∀ (oc : Nat → AttemptOutcome) (maxRetries : Nat) (b : ℚ) (en m st : String),
      1 ≤ maxRetries → oc maxRetries = .stageError en m st →
      processFromAttempt oc maxRetries b maxRetries =
        ([WEv.incRetry, WEv.logErr en m st, WEv.setStatusError m], none)) ∧
    (∀ (oc : Nat → AttemptOutcome) (maxRetries : Nat) (b : ℚ),
      ∃ mm, sleepsOf (workerProcess oc maxRetries b).1 =
        (List.range mm).map (fun i => b * 2 ^ i)) ∧
    (∀ (oc : Nat → AttemptOutcome) (maxRetries : Nat) (b : ℚ) (i : Nat),
      i + 1 < (sleepsOf (workerProcess oc maxRetries b).1).length →
      (sleepsOf (workerProcess oc maxRetries b).1).getD (i + 1) 0 =
        2 * (sleepsOf (workerProcess oc maxRetries b).1).getD i 0 ∧
      (0 < b →
        (sleepsOf (workerProcess oc maxRetries b).1).getD i 0 <
          (sleepsOf (workerProcess oc maxRetries b).1).getD (i + 1) 0)) ∧
    (∀ (oc : Nat → AttemptOutcome) (maxRetries : Nat) (b : ℚ),
      1 ≤ maxRetries →
      (∀ j, 1 ≤ j → j ≤ maxRetries → (retryableMsg (oc j)).isSome = true) →
      (workerProcess oc maxRetries b).2 = none ∧
      (workerProcess oc maxRetries b).1.getLast? =
        some (WEv.setStatusError ((retryableMsg (oc maxRetries)).getD ""))) := by
  refine ⟨?_, ?_, ?_, ?_, ?_, ?_, ?_, ?_⟩
  · intro oc maxRetries b
    exact attemptsUsed_wloop_le oc b maxRetries 1
  · intro oc maxRetries b
    simp [workerProcess, processFromAttempt]
  · intro oc maxRetries b k en m st hk1 hk2 hoc
    have e1 : maxRetries + 1 - k = (maxRetries - k - 1) + 1 + 1 := by omega
    have e2 : maxRetries + 1 - (k + 1) = (maxRetries - k - 1) + 1 := by omega
    have hr : (maxRetries - k - 1) + 1 ≠ 0 := by omega
    simp only [processFromAttempt, e1, e2]
    simp only [wloop, hoc, if_neg hr]
  · intro oc maxRetries b k en m hk1 hk2 hoc
    have e1 : maxRetries + 1 - k = (maxRetries - k - 1) + 1 + 1 := by omega
    have e2 : maxRetries + 1 - (k + 1) = (maxRetries - k - 1) + 1 := by omega
    have hr : (maxRetries - k - 1) + 1 ≠ 0 := by omega
    simp only [processFromAttempt, e1, e2]
    simp only [wloop, hoc, if_neg hr]
  · intro oc maxRetries b en m st hmax hoc
    have e1 : maxRetries + 1 - maxRetries = 0 + 1 := by omega
    simp only [processFromAttempt, e1]
    simp [wloop, hoc]
  · intro oc maxRetries b
    obtain ⟨mm, hmm⟩ := sleepsOf_wloop_shape oc b maxRetries 1 le_rfl
    refine ⟨mm, ?_⟩
    rw [List.range_eq_range']
    exact hmm
  · intro oc maxRetries b i hlen
    obtain ⟨mm, hmm⟩ := sleepsOf_wloop_shape oc b maxRetries 1 le_rfl
    have hmm' : sleepsOf (workerProcess oc maxRetries b).1 =
        (List.range mm).map (fun i => b * 2 ^ i) := by
      rw [List.range_eq_range']; exact hmm
    have hi1 : i + 1 < mm := by
      rw [hmm'] at hlen; simpa using hlen
    have hi0 : i < mm := by omega
    have g1 : (sleepsOf (workerProcess oc maxRetries b).1).getD (i + 1) 0 = b * 2 ^ (i + 1) := by
      rw [hmm', List.getD_eq_getElem _ _ (by simpa using hi1)]
      simp
    have g0 : (sleepsOf (workerProcess oc maxRetries b).1).getD i 0 = b * 2 ^ i := by
      rw [hmm', List.getD_eq_getElem _ _ (by simpa using hi0)]
      simp
    constructor
    · rw [g0, g1]; ring
    · intro hb
      rw [g0, g1]
      have hpos : 0 < b * 2 ^ i := by positivity
      calc b * 2 ^ i < b * 2 ^ i + b * 2 ^ i := by linarith
        _ = b * 2 ^ (i + 1) := by ring
  · intro oc maxRetries b hmax hall
    have h := wloop_all_retryable oc b maxRetries 1 hmax
      (fun j hj1 hj2 => hall j hj1 (by omega))
    have e : 1 + maxRetries - 1 = maxRetries := by omega
    rw [e] at h
    exact h

/-- Witness for C3, at a stream of retryable stage errors with the
default configuration of three attempts and a 30 second backoff. -/
theorem worker_retry_backoff_witness :
    processFromAttempt ocRetryW 3 30 1 =
      (WEv.incRetry ::
         WEv.logErr "PipelineError" ("transient failure " ++ toString 1) "download" ::
         WEv.sleep (30 * 2 ^ (1 - 1)) :: (processFromAttempt ocRetryW 3 30 2).1,
       (processFromAttempt ocRetryW 3 30 2).2) ∧
    processFromAttempt ocRetryW 3 30 3 =
      ([WEv.incRetry,
        WEv.logErr "PipelineError" ("transient failure " ++ toString 3) "download",
        WEv.setStatusError ("transient failure " ++ toString 3)], none) ∧
    attemptsUsed (workerProcess ocRetryW 3 30) ≤ 3 ∧
    (workerProcess ocRetryW 3 30).2 = none ∧
    (sleepsOf (workerProcess ocRetryW 3 30).1).getD 1 0 =
      2 * (sleepsOf (workerProcess ocRetryW 3 30).1).getD 0 0 ∧
    (sleepsOf (workerProcess ocRetryW 3 30).1).getD 0 0 <
      (sleepsOf (workerProcess ocRetryW 3 30).1).getD 1 0 := by
  refine ⟨?_, ?_, ?_, ?_, ?_, ?_⟩
  · exact worker_retry_backoff.2.2.1 ocRetryW 3 30 1 "PipelineError" _ "download"
      (by decide) (by decide) rfl
  · exact worker_retry_backoff.2.2.2.2.1 ocRetryW 3 30 "PipelineError" _ "download"
      (by decide) rfl
  · exact worker_retry_backoff.1 ocRetryW 3 30
  · exact (worker_retry_backoff.2.2.2.2.2.2.2 ocRetryW 3 30 (by decide)
      (fun j _ _ => rfl)).1
  · exact (worker_retry_backoff.2.2.2.2.2.2.1 ocRetryW 3 30 0 (by decide)).1
  · exact (worker_retry_backoff.2.2.2.2.2.2.1 ocRetryW 3 30 0 (by decide)).2 (by norm_num)

/-! ### Claim C4 -/

/-- Claim C4: a non-retryable error on the first attempt gives exactly
one execution attempt: the worker logs the error to the error-audit
table, sets the job status to error with the message, returns none, and
neither sleeps nor increments the retry counter. -/
theorem worker_nonretryable_terminal :
    ∀ (oc : Nat → AttemptOutcome) (maxRetries : Nat) (backoff : ℚ) (en m st : String),
      1 ≤ maxRetries → oc 1 = .nonRetryable en m st →
      workerProcess oc maxRetries backoff =
        ([WEv.logErr en m st, WEv.setStatusError m], none) ∧
      attemptsUsed (workerProcess oc maxRetries backoff) = 1 ∧
      sleepsOf (workerProcess oc maxRetries backoff).1 = [] ∧
      WEv.incRetry ∉ (workerProcess oc maxRetries backoff).1 := by
  intro oc maxRetries backoff en m st hmax hoc
  obtain ⟨r, rfl⟩ : ∃ r, maxRetries = r + 1 :=
    ⟨maxRetries - 1, by omega⟩
  have heq : workerProcess oc (r + 1) backoff =
      ([WEv.logErr en m st, WEv.setStatusError m], none) := by
    simp [workerProcess, wloop, hoc]
  refine ⟨heq, ?_, ?_, ?_⟩
  · rw [heq]; simp [attemptsUsed]
  · rw [heq]; simp [sleepsOf]
  · rw [heq]; simp

/-- Witness for C4: an access-denied error at the default configuration. -/
theorem worker_nonretryable_terminal_witness :
    workerProcess ocDeniedW 3 30 =
      ([WEv.logErr "AccessDeniedError" "no access to the channel" "download",
        WEv.setStatusError "no access to the channel"], none) :=
  (worker_nonretryable_terminal ocDeniedW 3 30 _ _ _ (by decide) rfl).1

/-! ### Claim C2 -/

theorem writesOf_map_write {α : Type} (g : α → FileName) (l : List α) :
    writesOf (l.map fun a => Ev.write (g a)) = l.map g := by
  induction l with
  | nil => rfl
  | cons a t ih => simp only [List.map_cons, writesOf, List.filterMap_cons] at ih ⊢; rw [ih]

theorem writesOf_transcribe_flatMap (l : List FileEntry) :
    writesOf (l.flatMap fun _ => [Ev.transcribe, Ev.dbSaveTranscript]) = [] := by
  induction l with
  | nil => rfl
  | cons a t ih =>
    simp only [List.flatMap_cons, writesOf, List.filterMap_append, List.filterMap_cons,
      List.filterMap_nil] at ih ⊢
    simpa using ih

theorem benign_append {P : FileName → Prop} {l1 l2 : List Ev}
    (h1 : ∀ f ∈ writesOf l1, P f) (h2 : ∀ f ∈ writesOf l2, P f) :
    ∀ f ∈ writesOf (l1 ++ l2), P f := by
  intro f hf
  rw [writesOf_append] at hf
  rcases List.mem_append.mp hf with h | h
  · exact h1 f h
  · exact h2 f h

theorem benign_of_writes_nil {P : FileName → Prop} {l : List Ev}
    (h : writesOf l = []) : ∀ f ∈ writesOf l, P f := by
  intro f hf
  rw [h] at hf
  cases hf

theorem benign_ite_text (c : Bool) :
    ∀ f ∈ writesOf (textWriteEvs c), f ≠ FileName.manifestJson := by
  cases c
  · intro f hf
    simp [textWriteEvs, writesOf] at hf
  · intro f hf
    have : f = FileName.textTxt := by
      simpa [textWriteEvs, writesOf] using hf
    subst this
    simp

theorem benign_ite_description (c : Bool) :
    ∀ f ∈ writesOf (descriptionWriteEvs c), f ≠ FileName.manifestJson := by
  cases c
  · intro f hf
    have : f = FileName.descriptionTxt := by
      simpa [descriptionWriteEvs, writesOf] using hf
    subst this
    simp
  · intro f hf
    simp [descriptionWriteEvs, writesOf] at hf

theorem benign_dlLoop (dl : Nat → DlOutcome) (i n : Nat) :
    ∀ f ∈ writesOf (dlLoop dl i n).1, f ≠ FileName.manifestJson := by
  intro f hf
  obtain ⟨b, hb⟩ := dlLoop_writes_attachment dl n i f hf
  subst hb
  simp

theorem collectTranscription_writes (avFiles : List FileEntry)
    (t : Except String (String × Nat)) :
    ∀ f ∈ writesOf (collectTranscription avFiles t).1, f = FileName.transcriptTxt := by
  intro f hf
  unfold collectTranscription at hf
  split at hf
  · cases hf
  · split at hf
    · simp [writesOf] at hf
    · simp only [writesOf_append] at hf
      rcases List.mem_append.mp hf with h | h
      · rcases List.mem_append.mp h with h1 | h2
        · simp [writesOf] at h1
        · rw [writesOf_transcribe_flatMap] at h2
          cases h2
      · simpa [writesOf] using h

theorem benign_collectTranscription (avFiles : List FileEntry)
    (t : Except String (String × Nat)) :
    ∀ f ∈ writesOf (collectTranscription avFiles t).1, f ≠ FileName.manifestJson := by
  intro f hf
  rw [collectTranscription_writes avFiles t f hf]
  simp

theorem benign_ext_map (files : List ExtFile) :
    ∀ f ∈ writesOf (files.map fun f => Ev.write (FileName.attachment f.filename)),
      f ≠ FileName.manifestJson := by
  intro f hf
  rw [writesOf_map_write] at hf
  obtain ⟨x, -, rfl⟩ := List.mem_map.mp hf
  simp

theorem markerLast_collect_tail (evs0 : List Ev) (et dir : String)
    (hben : ∀ f ∈ writesOf evs0, f ≠ FileName.manifestJson) :
    MarkerLast (writesOf (evs0 ++
      [Ev.dbStatus "saving", Ev.notify "saving", Ev.write FileName.metaJson,
       Ev.write FileName.manifestJson, Ev.dbSaveExport et dir,
       Ev.dbStatus "done", Ev.notify "done"])) := by
  rw [writesOf_append]
  have ht : writesOf [Ev.dbStatus "saving", Ev.notify "saving", Ev.write FileName.metaJson,
      Ev.write FileName.manifestJson, Ev.dbSaveExport et dir,
      Ev.dbStatus "done", Ev.notify "done"] =
      [FileName.metaJson, FileName.manifestJson] := rfl
  rw [ht]
  have e : writesOf evs0 ++ [FileName.metaJson, FileName.manifestJson] =
      (writesOf evs0 ++ [FileName.metaJson]) ++ [FileName.manifestJson] := by simp
  rw [e]
  apply markerLast_concat
  intro f hf
  rcases List.mem_append.mp hf with h1 | h2
  · exact hben f h1
  · simp only [List.mem_singleton] at h2
    subst h2
    simp

theorem markerLast_external_tail (evs0 : List Ev) (et dir : String)
    (hben : ∀ f ∈ writesOf evs0, f ≠ FileName.manifestJson) :
    MarkerLast (writesOf (evs0 ++
      [Ev.write FileName.transcriptTxt, Ev.dbSaveTranscript,
       Ev.dbStatus "saving", Ev.notify "saving", Ev.write FileName.metaJson,
       Ev.write FileName.manifestJson, Ev.dbSaveExport et dir,
       Ev.dbStatus "done", Ev.notify "done"])) := by
  rw [writesOf_append]
  have ht : writesOf [Ev.write FileName.transcriptTxt, Ev.dbSaveTranscript,
      Ev.dbStatus "saving", Ev.notify "saving", Ev.write FileName.metaJson,
      Ev.write FileName.manifestJson, Ev.dbSaveExport et dir,
      Ev.dbStatus "done", Ev.notify "done"] =
      [FileName.transcriptTxt, FileName.metaJson, FileName.manifestJson] := rfl
  rw [ht]
  have e : writesOf evs0 ++
      [FileName.transcriptTxt, FileName.metaJson, FileName.manifestJson] =
      (writesOf evs0 ++ [FileName.transcriptTxt, FileName.metaJson]) ++
        [FileName.manifestJson] := by simp
  rw [e]
  apply markerLast_concat
  intro f hf
  rcases List.mem_append.mp hf with h1 | h2
  · exact hben f h1
  · rcases List.mem_cons.mp h2 with h2 | h2
    · subst h2; simp
    · simp only [List.mem_singleton] at h2
      subst h2
      simp

/-- Claim C2: in every successful run of the collect and the external
orchestrator the completion marker manifest.json is the last file
written: the text, attachment, transcript, description and meta.json
artifacts are all written strictly before it, and the marker never
occurs before the final write of the trace. -/
theorem completion_marker_written_last :
    (∀ (env : CollectEnv) (fromStart : Bool) (dir : String) (evs : List Ev) (d : String),
      collectorRun env fromStart dir = (evs, .ok d) → MarkerLast (writesOf evs)) ∧
    (∀ (env : ExternalEnv) (maxD maxF : Nat) (fromStart : Bool) (dir : String)
      (evs : List Ev) (d : String),
      externalRun env maxD maxF fromStart dir = (evs, .ok d) → MarkerLast (writesOf evs)) := by
  constructor
  · intro env fS dir evs d h
    unfold collectorRun at h
    split at h
    · rw [Prod.mk.injEq] at h
      obtain ⟨h1, -⟩ := h
      subst h1
      by_cases hx : env.hasCollectedExport <;>
        simp [hx, writesOf, MarkerLast]
    · split at h
      · simp [Prod.ext_iff] at h
      · simp [Prod.ext_iff] at h
      · simp [Prod.ext_iff] at h
      · simp [Prod.ext_iff] at h
      · simp only [] at h
        split at h
        · simp [Prod.ext_iff] at h
        · split at h
          · simp [Prod.ext_iff] at h
          · split at h
            · simp [Prod.ext_iff] at h
            · rw [Prod.mk.injEq] at h
              obtain ⟨h1, -⟩ := h
              subst h1
              apply markerLast_collect_tail
              apply benign_append
              · apply benign_append
                · apply benign_append
                  · exact benign_of_writes_nil rfl
                  · exact benign_ite_text _
                · exact benign_dlLoop env.download 0 _
              · exact benign_collectTranscription _ env.transcription
  · intro env maxD maxF fS dir evs d h
    unfold externalRun at h
    split at h
    · simp [Prod.ext_iff] at h
    · split at h
      · rw [Prod.mk.injEq] at h
        obtain ⟨h1, -⟩ := h
        subst h1
        by_cases hx : env.hasCollectedExport <;>
          simp [hx, writesOf, MarkerLast]
      · split at h
        · simp [Prod.ext_iff] at h
        · simp [Prod.ext_iff] at h
        · simp [Prod.ext_iff] at h
        · split at h
          · simp [Prod.ext_iff] at h
          · split at h
            · simp [Prod.ext_iff] at h
            · simp only [] at h
              split at h
              · simp [Prod.ext_iff] at h
              · simp [Prod.ext_iff] at h
              · split at h
                · simp [Prod.ext_iff] at h
                · split at h
                  · simp [Prod.ext_iff] at h
                  · rw [Prod.mk.injEq] at h
                    obtain ⟨h1, -⟩ := h
                    subst h1
                    apply markerLast_external_tail
                    apply benign_append
                    · apply benign_append
                      · apply benign_append
                        · apply benign_append
                          · exact benign_of_writes_nil rfl
                          · exact benign_ite_description _
                        · exact benign_of_writes_nil rfl
                      · exact benign_ext_map _
                    · exact benign_of_writes_nil rfl

/-- Witness for C2: full successful runs of both orchestrators, with
text, attachments, a transcript and metadata all written before the
marker. -/
theorem completion_marker_written_last_witness :
    MarkerLast (writesOf (collectorRun fullCollectEnv false "/out/collected/100/11").1) ∧
    MarkerLast (writesOf (externalRun fullExternalEnv 7200 2000 false
      "/out/collected/external/y/v").1) := by
  constructor
  · exact completion_marker_written_last.1 fullCollectEnv false "/out/collected/100/11"
      _ "/out/collected/100/11" (by decide)
  · exact completion_marker_written_last.2 fullExternalEnv 7200 2000 false
      "/out/collected/external/y/v" _ "/out/collected/external/y/v" (by decide)

/-! ### Claim C5 -/

theorem peRunWorker_fields (store : JobStore) (evs : List BEv) (base : BatchItem)
    (jobId : String) (proc : String → ProcBehavior) :
    (peRunWorker store evs base jobId proc).1 = store ∧
    (peRunWorker store evs base jobId proc).2.1 = evs ++ [BEv.workerCall jobId] ∧
    (peRunWorker store evs base jobId proc).2.2.jobId = some jobId := by
  unfold peRunWorker
  refine ⟨?_, ?_, ?_⟩ <;> (split <;> simp)

theorem countP_le_one_of_nodup_map (s : JobStore) (url : String)
    (hnd : UrlsNodup s) : countUrl s url ≤ 1 := by
  induction s with
  | nil => simp [countUrl]
  | cons j t ih =>
    simp only [UrlsNodup, List.map_cons, List.nodup_cons] at hnd
    obtain ⟨hnotin, hnd2⟩ := hnd
    by_cases hj : j.url = url
    · have h0 : t.countP (fun x => decide (x.url = url)) = 0 := by
        rw [List.countP_eq_zero]
        intro x hx
        simp only [decide_eq_true_eq]
        intro hxu
        exact hnotin (List.mem_map.mpr ⟨x, hx, by rw [hxu, hj]⟩)
      simp only [countUrl, List.countP_cons] at h0 ⊢
      simp [hj, h0]
    · have := ih hnd2
      simp only [countUrl, List.countP_cons] at this ⊢
      simp [hj]
      omega

/-- Claim C5 counterexample: summarizing is a stage status the media
orchestrator sets while a job is being processed, yet the batch
idempotency check does not list it, so resubmitting the reference of a
job stuck in summarizing is not reported as a conflict: the job is
reprocessed under the same id (here to success). -/
theorem resubmission_conflict_counterexample :
    "summarizing" ∈ mediaOrchestratorStatusUpdates ∧
    "summarizing" ∉ batchInProgressStatuses ∧
    processEntry summarizingStore summarizingEntry 1 false "job-new" procOkW findArtifactNone =
      (summarizingStore, [BEv.workerCall "j1"],
       { index := 1, url := "https://t.me/c/100/11", label := "talk", group := "",
         success := true, jobId := some "j1", error := none,
         artifactDir := some "/out/collected/100/11" }) := by
  refine ⟨by decide, by decide, by decide⟩

/-- Claim C5 amended: the url column is unique, so at most one job row
per reference can ever exist and a duplicate insert raises an
IntegrityError; resubmitting an existing reference without a
from-scratch flag resolves to the existing job id and never adds a row;
a done job is reported successful without any worker call; a job in one
of the six statuses downloading, transcribing, exporting, collecting,
analyzing, saving is reported as a conflict without a worker call; an
errored job is reset to pending with retry_count 0 and reprocessed
under the same id; a job in any other status (such as summarizing,
see the counterexample) is reprocessed under the same id without the
reset. -/
theorem reference_unique_resubmission_amended :
    (∀ (s : JobStore) (url : String), UrlsNodup s → countUrl s url ≤ 1) ∧
    (∀ (s : JobStore) (newId url jt : String) (s2 : JobStore) (j : String),
      dbCreateJob s newId url jt = .ok (s2, j) →
      ∀ (newId2 jt2 : String),
        dbCreateJob s2 newId2 url jt2 =
          .error (.integrityError "UNIQUE constraint failed: jobs.url")) ∧
    (∀ (s : JobStore) (e : NEntry) (i : Nat) (n : String) (proc : String → ProcBehavior)
      (fA : String → Option String) (j : JobRec),
      dbGetJobByUrl s e.url = some j → j.status = "done" →
      processEntry s e i false n proc fA =
        (s, [], { index := i, url := e.url, label := e.label, group := e.group,
                  success := true, jobId := some j.id, error := none,
                  artifactDir := fA j.id })) ∧
    (∀ (s : JobStore) (e : NEntry) (i : Nat) (n : String) (proc : String → ProcBehavior)
      (fA : String → Option String) (j : JobRec),
      dbGetJobByUrl s e.url = some j → j.status ∈ batchInProgressStatuses →
      processEntry s e i false n proc fA =
        (s, [], { index := i, url := e.url, label := e.label, group := e.group,
                  success := false, jobId := some j.id,
                  error := some ("Already processing (status: " ++ j.status ++ ")"),
                  artifactDir := none })) ∧
    (∀ (s : JobStore) (e : NEntry) (i : Nat) (n : String) (proc : String → ProcBehavior)
      (fA : String → Option String) (j : JobRec),
      dbGetJobByUrl s e.url = some j → j.status = "error" →
      (processEntry s e i false n proc fA).1 = dbSetStatusRetry s j.id "pending" 0 ∧
      (processEntry s e i false n proc fA).2.1 =
        [BEv.dbResetPending j.id true, BEv.workerCall j.id] ∧
      (processEntry s e i false n proc fA).2.2.jobId = some j.id) ∧
    (∀ (s : JobStore) (jobId : String) (jr : JobRec),
      jr ∈ dbSetStatusRetry s jobId "pending" 0 →
      jr.id ≠ jobId ∨ (jr.status = "pending" ∧ jr.retryCount = 0)) ∧
    (∀ (s : JobStore) (e : NEntry) (i : Nat) (n : String) (proc : String → ProcBehavior)
      (fA : String → Option String) (fS : Bool) (j : JobRec),
      dbGetJobByUrl s e.url = some j →
      ((processEntry s e i fS n proc fA).1).length = s.length ∧
      (processEntry s e i fS n proc fA).2.2.jobId = some j.id) := by
  refine ⟨countP_le_one_of_nodup_map, ?_, ?_, ?_, ?_, ?_, ?_⟩
  · intro s newId url jt s2 j h newId2 jt2
    unfold dbCreateJob at h ⊢
    split at h
    · cases h
    · rw [Except.ok.injEq, Prod.mk.injEq] at h
      obtain ⟨h1, -⟩ := h
      subst h1
      rw [if_pos]
      simp
  · intro s e i n proc fA j hurl hdone
    simp [processEntry, hurl, hdone]
  · intro s e i n proc fA j hurl hmem
    have hdone : j.status ≠ "done" := by
      intro hd
      rw [hd] at hmem
      simp [batchInProgressStatuses] at hmem
    have hcont : batchInProgressStatuses.contains j.status = true := by
      simp [batchInProgressStatuses] at hmem
      rcases hmem with h | h | h | h | h | h <;> (rw [h]; decide)
    simp only [processEntry, hurl]
    rw [if_pos (show (!false) = true from rfl), if_neg hdone, if_pos hcont]
  · intro s e i n proc fA j hurl herr
    have hdone : j.status ≠ "done" := by rw [herr]; decide
    have hcont : ¬(batchInProgressStatuses.contains j.status = true) := by
      rw [herr]; decide
    have hfields := peRunWorker_fields (dbSetStatusRetry s j.id "pending" 0)
      [BEv.dbResetPending j.id true]
      { index := i, url := e.url, label := e.label, group := e.group,
        success := false, jobId := none, error := none, artifactDir := none } j.id proc
    have hred : processEntry s e i false n proc fA =
        peRunWorker (dbSetStatusRetry s j.id "pending" 0)
          [BEv.dbResetPending j.id true]
          { index := i, url := e.url, label := e.label, group := e.group,
            success := false, jobId := none, error := none, artifactDir := none }
          j.id proc := by
      simp only [processEntry, hurl]
      rw [if_pos (show (!false) = true from rfl), if_neg hdone, if_neg hcont, if_pos herr]
    rw [hred]
    refine ⟨hfields.1, ?_, hfields.2.2⟩
    rw [hfields.2.1]
    rfl
  · intro s jobId jr hmem
    unfold dbSetStatusRetry at hmem
    obtain ⟨orig, horig, heq⟩ := List.mem_map.mp hmem
    by_cases hid : orig.id = jobId
    · right
      rw [if_pos hid] at heq
      rw [← heq]
      exact ⟨rfl, rfl⟩
    · left
      rw [if_neg hid] at heq
      rw [← heq]
      exact hid
  · intro s e i n proc fA fS j hurl
    by_cases hfS : fS = true
    · subst hfS
      have hfields := peRunWorker_fields (dbSetStatus s j.id "pending")
        [BEv.dbResetPending j.id false]
        { index := i, url := e.url, label := e.label, group := e.group,
          success := false, jobId := none, error := none, artifactDir := none } j.id proc
      have hred : processEntry s e i true n proc fA =
          peRunWorker (dbSetStatus s j.id "pending") [BEv.dbResetPending j.id false]
            { index := i, url := e.url, label := e.label, group := e.group,
              success := false, jobId := none, error := none, artifactDir := none }
            j.id proc := by
        simp only [processEntry, hurl]
        rw [if_neg (show ¬((!true) = true) from by decide)]
      rw [hred]
      exact ⟨by rw [hfields.1]; exact (List.length_map s _), hfields.2.2⟩
    · have hfS2 : fS = false := by
        cases fS
        · rfl
        · exact absurd rfl hfS
      subst hfS2
      by_cases hdone : j.status = "done"
      · have hred : processEntry s e i false n proc fA =
            (s, [], { index := i, url := e.url, label := e.label, group := e.group,
                      success := true, jobId := some j.id, error := none,
                      artifactDir := fA j.id }) := by
          simp only [processEntry, hurl]
          rw [if_pos (show (!false) = true from rfl), if_pos hdone]
        rw [hred]
        exact ⟨rfl, rfl⟩
      · by_cases hcont : batchInProgressStatuses.contains j.status = true
        · have hred : processEntry s e i false n proc fA =
              (s, [], { index := i, url := e.url, label := e.label, group := e.group,
                        success := false, jobId := some j.id,
                        error := some ("Already processing (status: " ++ j.status ++ ")"),
                        artifactDir := none }) := by
            simp only [processEntry, hurl]
            rw [if_pos (show (!false) = true from rfl), if_neg hdone, if_pos hcont]
          rw [hred]
          exact ⟨rfl, rfl⟩
        · by_cases herr : j.status = "error"
          · have hfields := peRunWorker_fields (dbSetStatusRetry s j.id "pending" 0)
              [BEv.dbResetPending j.id true]
              { index := i, url := e.url, label := e.label, group := e.group,
                success := false, jobId := none, error := none, artifactDir := none } j.id proc
            have hred : processEntry s e i false n proc fA =
                peRunWorker (dbSetStatusRetry s j.id "pending" 0)
                  [BEv.dbResetPending j.id true]
                  { index := i, url := e.url, label := e.label, group := e.group,
                    success := false, jobId := none, error := none, artifactDir := none }
                  j.id proc := by
              simp only [processEntry, hurl]
              rw [if_pos (show (!false) = true from rfl), if_neg hdone, if_neg hcont,
                if_pos herr]
            rw [hred]
            exact ⟨by rw [hfields.1]; exact (List.length_map s _), hfields.2.2⟩
          · have hfields := peRunWorker_fields s []
              { index := i, url := e.url, label := e.label, group := e.group,
                success := false, jobId := none, error := none, artifactDir := none } j.id proc
            have hred : processEntry s e i false n proc fA =
                peRunWorker s []
                  { index := i, url := e.url, label := e.label, group := e.group,
                    success := false, jobId := none, error := none, artifactDir := none }
                  j.id proc := by
              simp only [processEntry, hurl]
              rw [if_pos (show (!false) = true from rfl), if_neg hdone, if_neg hcont,
                if_neg herr]
            rw [hred]
            exact ⟨by rw [hfields.1], hfields.2.2⟩

/-- Witness for C5, at concrete one-job stores in each status class. -/
theorem reference_unique_resubmission_amended_witness :
    countUrl (oneJobStore "done") "https://t.me/c/100/11" ≤ 1 ∧
    dbCreateJob [{ id := "j1", url := "u", status := "pending", retryCount := 0,
                   jobType := "media", lastError := none }] "j2" "u" "external" =
      .error (.integrityError "UNIQUE constraint failed: jobs.url") ∧
    processEntry (oneJobStore "done") summarizingEntry 1 false "job-9" procOkW
        findArtifactNone =
      (oneJobStore "done", [],
       { index := 1, url := summarizingEntry.url, label := summarizingEntry.label,
         group := summarizingEntry.group, success := true, jobId := some "j1",
         error := none, artifactDir := none }) ∧
    processEntry (oneJobStore "downloading") summarizingEntry 1 false "job-9" procOkW
        findArtifactNone =
      (oneJobStore "downloading", [],
       { index := 1, url := summarizingEntry.url, label := summarizingEntry.label,
         group := summarizingEntry.group, success := false, jobId := some "j1",
         error := some "Already processing (status: downloading)", artifactDir := none }) ∧
    (processEntry (oneJobStore "error") summarizingEntry 1 false "job-9" procOkW
        findArtifactNone).1 = dbSetStatusRetry (oneJobStore "error") "j1" "pending" 0 ∧
    (processEntry (oneJobStore "error") summarizingEntry 1 false "job-9" procOkW
        findArtifactNone).2.2.jobId = some "j1" := by
  refine ⟨?_, ?_, ?_, ?_, ?_, ?_⟩
  · exact reference_unique_resubmission_amended.1 (oneJobStore "done") _
      (by unfold UrlsNodup; decide)
  · exact reference_unique_resubmission_amended.2.1 [] "j1" "u" "media" _ "j1" rfl
      "j2" "external"
  · exact reference_unique_resubmission_amended.2.2.1 (oneJobStore "done") summarizingEntry
      1 "job-9" procOkW findArtifactNone (oneJob "done") (by decide) rfl
  · exact reference_unique_resubmission_amended.2.2.2.1 (oneJobStore "downloading")
      summarizingEntry 1 "job-9" procOkW findArtifactNone (oneJob "downloading")
      (by decide) (by decide)
  · exact (reference_unique_resubmission_amended.2.2.2.2.1 (oneJobStore "error")
      summarizingEntry 1 "job-9" procOkW findArtifactNone (oneJob "error")
      (by decide) rfl).1
  · exact (reference_unique_resubmission_amended.2.2.2.2.1 (oneJobStore "error")
      summarizingEntry 1 "job-9" procOkW findArtifactNone (oneJob "error")
      (by decide) rfl).2.2

/-! ### Claim C7 -/

theorem runLoopAux_length (proc : Nat → String → ProcBehavior) (newId : Nat → String)
    (fA : String → Option String) (fS : Bool) :
    ∀ (entries : List NEntry) (idx : Nat) (store : JobStore),
      ((runLoopAux proc newId fA fS entries idx store).2).length = entries.length := by
  intro entries
  induction entries with
  | nil => intro idx store; simp [runLoopAux]
  | cons e rest ih => intro idx store; simp [runLoopAux, ih]

/-- Claim C7: the per-item loop of the batch runner does isolate
failures (a batch of three telegram references where only the second
raises yields two successes and one failure, and the loop always emits
one item per entry), but BatchRunner.run never reaches the loop: it
constructs the shared Worker first, outside the per-item isolation, and
that construction raises the TypeError of workerInit, so run raises
instead of returning the claimed succeeded equals N minus 1 result. -/
theorem batch_isolation_defeated_by_worker_init :
    batchRunFaithful cfgW [] noteThreeTg false procSecondRaises newIdSeq findArtifactNone =
      .error (.typeError workerInitTypeError) ∧
    succeededCount (runLoopAux procSecondRaises newIdSeq findArtifactNone false
      (validEntries noteThreeTg) 1 []).2 = 2 ∧
    failedCount (runLoopAux procSecondRaises newIdSeq findArtifactNone false
      (validEntries noteThreeTg) 1 []).2 = 1 ∧
    ((runLoopAux procSecondRaises newIdSeq findArtifactNone false
      (validEntries noteThreeTg) 1 []).2).map (fun it => (it.index, it.success)) =
      [(1, true), (2, false), (3, true)] ∧
    (∀ (entries : List NEntry) (proc : Nat → String → ProcBehavior) (newId : Nat → String)
      (fA : String → Option String) (fS : Bool) (store : JobStore),
      ((runLoopAux proc newId fA fS entries 1 store).2).length = entries.length) := by
  refine ⟨by decide, by decide, by decide, by decide, ?_⟩
  intro entries proc newId fA fS store
  exact runLoopAux_length proc newId fA fS entries 1 store

/-- Claim C6 counterexample: a job whose kind was already resolved and
persisted as media is classified again on the next call, so the payload
is inspected a second time; the claim that every persisted kind skips
classification fails at the kind media. -/
theorem classification_rerun_on_media_counterexample :
    CEv.classifyCalled ∈ (determineJobType "media" (.ok MessageTypeM.audioVideo)).1 ∧
    (determineJobType "media" (.ok MessageTypeM.audioVideo)) =
      ([CEv.classifyCalled, CEv.dbSetJobType "media"], .ok "media") := by
  constructor <;> decide

/-- Claim C6 amended: a persisted kind collect or external is always
reused without reclassification, and so is any persisted kind other
than media (for example ingest); a persisted kind media is reclassified
on every call, because media is also the column default and may not
come from a real classification. -/
theorem classification_cache_amended :
    ∀ (res : Except String MessageTypeM),
      (∀ jt, jt = "collect" ∨ jt = "external" → determineJobType jt res = ([], .ok jt)) ∧
      (∀ jt, jt ≠ "" → jt ≠ "media" → determineJobType jt res = ([], .ok jt)) ∧
      CEv.classifyCalled ∈ (determineJobType "media" res).1 := by
  intro res
  refine ⟨?_, ?_, ?_⟩
  · intro jt h
    simp [determineJobType, h]
  · intro jt h1 h2
    rcases h3 : decide (jt = "collect" ∨ jt = "external") with _ | _
    · simp at h3
      simp [determineJobType, h1, h2, h3.1, h3.2]
    · simp at h3
      simp [determineJobType, h3]
  · cases res with
    | error m => simp [determineJobType]
    | ok mt => simp [determineJobType]

/-- Witness for C6 at a concrete persisted ingest kind and concrete
classifier verdicts. -/
theorem classification_cache_amended_witness :
    determineJobType "collect" (.ok MessageTypeM.textOnly) = ([], .ok "collect") ∧
    determineJobType "ingest" (.ok MessageTypeM.textOnly) = ([], .ok "ingest") ∧
    CEv.classifyCalled ∈ (determineJobType "media" (.ok MessageTypeM.textOnly)).1 := by
  refine ⟨?_, ?_, ?_⟩
  · exact (classification_cache_amended (.ok MessageTypeM.textOnly)).1 "collect" (Or.inl rfl)
  · exact (classification_cache_amended (.ok MessageTypeM.textOnly)).2.1 "ingest"
      (by decide) (by decide)
  · exact (classification_cache_amended (.ok MessageTypeM.textOnly)).2.2

/-! ### Claim C8 -/

theorem mem_foldl_dedupStep (l : List String) :
    ∀ (acc : List String) (x : String),
      x ∈ l.foldl dedupStep acc ↔ x ∈ acc ∨ x ∈ l := by
  induction l with
  | nil => intro acc x; simp
  | cons k t ih =>
    intro acc x
    rw [List.foldl_cons, ih]
    unfold dedupStep
    by_cases hc : acc.any (fun y => y = k) = true
    · rw [if_pos hc]
      have hk : k ∈ acc := by
        simp only [List.any_eq_true, decide_eq_true_eq] at hc
        obtain ⟨y, hy, rfl⟩ := hc
        exact hy
      constructor
      · rintro (h | h)
        · exact Or.inl h
        · exact Or.inr (List.mem_cons_of_mem k h)
      · rintro (h | h)
        · exact Or.inl h
        · rcases List.mem_cons.mp h with rfl | h
          · exact Or.inl hk
          · exact Or.inr h
    · rw [if_neg hc]
      simp only [List.mem_append, List.mem_singleton, List.mem_cons]
      tauto

theorem mem_dedupFirstSeen (l : List String) (x : String) :
    x ∈ dedupFirstSeen l ↔ x ∈ l := by
  unfold dedupFirstSeen
  rw [mem_foldl_dedupStep]
  simp

theorem nodup_foldl_dedupStep (l : List String) :
    ∀ (acc : List String), acc.Nodup → (l.foldl dedupStep acc).Nodup := by
  induction l with
  | nil => intro acc h; simpa using h
  | cons k t ih =>
    intro acc hacc
    rw [List.foldl_cons]
    apply ih
    unfold dedupStep
    by_cases hc : acc.any (fun y => y = k) = true
    · rw [if_pos hc]; exact hacc
    · rw [if_neg hc]
      have hk : k ∉ acc := by
        intro hmem
        exact hc (List.any_eq_true.mpr ⟨k, hmem, by simp⟩)
      simp [List.nodup_append, hacc, hk]

theorem dedupFirstSeen_nodup (l : List String) : (dedupFirstSeen l).Nodup :=
  nodup_foldl_dedupStep l [] List.nodup_nil

theorem dedupFirstSeen_snoc (l : List String) (k : String) :
    dedupFirstSeen (l ++ [k]) = dedupStep (dedupFirstSeen l) k := by
  unfold dedupFirstSeen
  rw [List.foldl_append]
  rfl

theorem insertGrouped_any_eq (acc : List (String × List IndexEntryM)) (k : String) :
    (acc.map Prod.fst).any (fun x => x = k) = acc.any (fun p => p.1 = k) := by
  induction acc with
  | nil => rfl
  | cons q t ih => simp [List.any_cons, ih]

theorem insertGrouped_keys (acc : List (String × List IndexEntryM)) (e : IndexEntryM) :
    (insertGrouped acc e).map Prod.fst = dedupStep (acc.map Prod.fst) (keyOf e) := by
  unfold insertGrouped dedupStep
  rw [insertGrouped_any_eq]
  by_cases hc : acc.any (fun p => p.1 = keyOf e) = true
  · rw [if_pos hc, if_pos hc, List.map_map]
    apply List.map_congr_left
    intro p hp
    by_cases hpk : p.1 = keyOf e
    · simp [hpk]
    · simp [hpk]
  · rw [if_neg hc, if_neg hc]
    simp

theorem insertGrouped_filter (processed : List IndexEntryM)
    (acc : List (String × List IndexEntryM)) (e : IndexEntryM)
    (hkeys : acc.map Prod.fst = dedupFirstSeen (processed.map keyOf))
    (hfilter : ∀ p ∈ acc, p.2 = processed.filter (fun x => keyOf x = p.1)) :
    ∀ p ∈ insertGrouped acc e,
      p.2 = (processed ++ [e]).filter (fun x => keyOf x = p.1) := by
  intro p hp
  unfold insertGrouped at hp
  rw [List.filter_append]
  by_cases hc : acc.any (fun q => q.1 = keyOf e) = true
  · rw [if_pos hc] at hp
    obtain ⟨q, hq, hpe⟩ := List.mem_map.mp hp
    by_cases hqk : q.1 = keyOf e
    · rw [if_pos hqk] at hpe
      subst hpe
      have h1 : List.filter (fun x => decide (keyOf x = q.1)) [e] = [e] := by
        simp [hqk]
      rw [h1, hfilter q hq]
    · rw [if_neg hqk] at hpe
      subst hpe
      have h1 : List.filter (fun x => decide (keyOf x = q.1)) [e] = [] := by
        simp
        intro hk
        exact hqk hk.symm
      rw [h1, hfilter q hq, List.append_nil]
  · rw [if_neg hc] at hp
    rcases List.mem_append.mp hp with hin | hnew
    · have hpk : p.1 ≠ keyOf e := by
        intro hk
        exact hc (List.any_eq_true.mpr ⟨p, hin, by simp [hk]⟩)
      have h1 : List.filter (fun x => decide (keyOf x = p.1)) [e] = [] := by
        simp
        intro hk
        exact hpk hk.symm
      rw [h1, hfilter p hin, List.append_nil]
    · simp only [List.mem_singleton] at hnew
      subst hnew
      have hke : keyOf e ∉ processed.map keyOf := by
        intro hmem
        have : keyOf e ∈ dedupFirstSeen (processed.map keyOf) :=
          (mem_dedupFirstSeen _ _).mpr hmem
        rw [← hkeys] at this
        obtain ⟨q, hq, hqk⟩ := List.mem_map.mp this
        exact hc (List.any_eq_true.mpr ⟨q, hq, by simp [hqk]⟩)
      have h1 : List.filter (fun x => decide (keyOf x = keyOf e)) processed = [] := by
        rw [List.filter_eq_nil_iff]
        intro x hx
        simp only [decide_eq_true_eq]
        intro hk
        exact hke (List.mem_map.mpr ⟨x, hx, hk⟩)
      rw [h1]
      simp

theorem flatMap_update_perm (k : String) (e : IndexEntryM) :
    ∀ (acc : List (String × List IndexEntryM)),
      (acc.map Prod.fst).Nodup →
      acc.any (fun p => p.1 = k) = true →
      ((acc.map (fun p => if p.1 = k then (p.1, p.2 ++ [e]) else p)).flatMap
          (fun p => p.2)).Perm (acc.flatMap (fun p => p.2) ++ [e]) := by
  intro acc
  induction acc with
  | nil => intro _ h; simp at h
  | cons q t ih =>
    intro hnd hany
    simp only [List.map_cons, List.nodup_cons] at hnd
    by_cases hq : q.1 = k
    · rw [List.map_cons, if_pos hq]
      have ht : t.map (fun p => if p.1 = k then (p.1, p.2 ++ [e]) else p) = t := by
        have hcongr : ∀ p ∈ t, (if p.1 = k then (p.1, p.2 ++ [e]) else p) = p := by
          intro p hp
          rw [if_neg]
          intro hpk
          exact hnd.1 (by rw [hq, ← hpk]; exact List.mem_map_of_mem Prod.fst hp)
        rw [List.map_congr_left hcongr]
        simp
      rw [ht]
      simp only [List.flatMap_cons]
      rw [List.append_assoc, List.append_assoc]
      exact List.Perm.append_left q.2 List.perm_append_comm
    · rw [List.map_cons, if_neg hq]
      have hany2 : t.any (fun p => p.1 = k) = true := by
        simp only [List.any_cons, Bool.or_eq_true, decide_eq_true_eq] at hany
        rcases hany with h | h
        · exact absurd h hq
        · simpa using h
      have hperm := ih hnd.2 hany2
      simp only [List.flatMap_cons]
      rw [List.append_assoc]
      exact List.Perm.append_left q.2 hperm

theorem insertGrouped_flatMap_perm (acc : List (String × List IndexEntryM))
    (e : IndexEntryM) (hnd : (acc.map Prod.fst).Nodup) :
    ((insertGrouped acc e).flatMap (fun p => p.2)).Perm
      (acc.flatMap (fun p => p.2) ++ [e]) := by
  unfold insertGrouped
  by_cases hc : acc.any (fun p => p.1 = keyOf e) = true
  · rw [if_pos hc]
    exact flatMap_update_perm (keyOf e) e acc hnd hc
  · rw [if_neg hc]
    rw [List.flatMap_append]
    simp

theorem groupEntries_fold_invariant :
    ∀ (es processed : List IndexEntryM) (acc : List (String × List IndexEntryM)),
      acc.map Prod.fst = dedupFirstSeen (processed.map keyOf) →
      (∀ p ∈ acc, p.2 = processed.filter (fun x => keyOf x = p.1)) →
      ((es.foldl insertGrouped acc).map Prod.fst =
          dedupFirstSeen ((processed ++ es).map keyOf) ∧
        (∀ p ∈ es.foldl insertGrouped acc,
          p.2 = (processed ++ es).filter (fun x => keyOf x = p.1)) ∧
        ((es.foldl insertGrouped acc).flatMap (fun p => p.2)).Perm
          (acc.flatMap (fun p => p.2) ++ es)) := by
  intro es
  induction es with
  | nil =>
    intro processed acc hkeys hfilter
    refine ⟨by simpa using hkeys, by simpa using hfilter, by simp⟩
  | cons e rest ih =>
    intro processed acc hkeys hfilter
    have hnd : (acc.map Prod.fst).Nodup := by
      rw [hkeys]; exact dedupFirstSeen_nodup _
    have hkeys2 : (insertGrouped acc e).map Prod.fst =
        dedupFirstSeen ((processed ++ [e]).map keyOf) := by
      have hm : (processed ++ [e]).map keyOf = processed.map keyOf ++ [keyOf e] := by
        simp
      rw [hm, dedupFirstSeen_snoc, insertGrouped_keys, hkeys]
    have hfilter2 := insertGrouped_filter processed acc e hkeys hfilter
    obtain ⟨ik, ifil, iperm⟩ := ih (processed ++ [e]) (insertGrouped acc e) hkeys2 hfilter2
    rw [List.foldl_cons]
    refine ⟨?_, ?_, ?_⟩
    · rw [ik]
      congr 1
      simp
    · intro p hp
      have := ifil p hp
      rw [this]
      congr 1
      simp
    · have hstep := insertGrouped_flatMap_perm acc e hnd
      have heq : (acc.flatMap (fun p => p.2) ++ [e]) ++ rest =
          acc.flatMap (fun p => p.2) ++ (e :: rest) := by simp
      exact iperm.trans (heq ▸ (hstep.append_right rest))

theorem processEntry_item_skeleton (store : JobStore) (e : NEntry) (i : Nat) (fS : Bool)
    (n : String) (proc : String → ProcBehavior) (fA : String → Option String) :
    (processEntry store e i fS n proc fA).2.2.index = i ∧
    (processEntry store e i fS n proc fA).2.2.url = e.url ∧
    (processEntry store e i fS n proc fA).2.2.label = e.label ∧
    (processEntry store e i fS n proc fA).2.2.group = e.group := by
  unfold processEntry peRunWorker
  refine ⟨?_, ?_, ?_, ?_⟩ <;> (repeat' split) <;> rfl

theorem runLoopAux_skeleton (proc : Nat → String → ProcBehavior) (newId : Nat → String)
    (fA : String → Option String) (fS : Bool) :
    ∀ (entries : List NEntry) (idx : Nat) (store : JobStore),
      ((runLoopAux proc newId fA fS entries idx store).2).map
          (fun it => (it.index, it.url, it.label, it.group)) =
        (List.enumFrom idx entries).map (fun p => (p.1, p.2.url, p.2.label, p.2.group)) := by
  intro entries
  induction entries with
  | nil => intro idx store; rfl
  | cons e rest ih =>
    intro idx store
    have hs := processEntry_item_skeleton store e idx fS (newId idx) (proc idx) fA
    simp only [runLoopAux, List.enumFrom, List.map_cons]
    rw [hs.1, hs.2.1, hs.2.2.1, hs.2.2.2, ih]

/-- Claim C8 counterexample: a note with two input references, one of
which fails url parsing (its link is None), produces an index with a
single entry: the invalid reference is filtered out by the batch runner
before processing, so it appears in neither index.json nor INDEX.md,
against the claim of exactly one entry per input reference of the
note. -/
theorem index_entry_per_reference_counterexample :
    noteOneInvalid.length = 2 ∧
    ((buildIndexGroups (runLoopAux procAllOk newIdSeq findArtifactNone false
        (validEntries noteOneInvalid) 1 []).2).flatMap (fun p => p.2)).length = 1 := by
  refine ⟨by decide, by decide⟩

/-- Claim C8 amended: the generated index contains exactly one entry
per valid input reference of the note (entries whose url fails to parse
are dropped before processing and appear nowhere in the index); groups
appear in first-seen order of the caller-supplied grouping key; entries
inside each group preserve submission order; and the entry skeleton of
indices, urls, labels and groups is independent of the success or
failure mix of the items. -/
theorem index_groups_amended :
    (∀ (es : List IndexEntryM),
      ((groupEntries es).flatMap (fun p => p.2)).Perm es) ∧
    (∀ (es : List IndexEntryM),
      (groupEntries es).map Prod.fst = dedupFirstSeen (es.map keyOf)) ∧
    (∀ (es : List IndexEntryM), ∀ p ∈ groupEntries es,
      p.2 = es.filter (fun x => keyOf x = p.1)) ∧
    (∀ (note : List NEntry) (proc : Nat → String → ProcBehavior) (newId : Nat → String)
      (fA : String → Option String) (fS : Bool) (store : JobStore),
      ((runLoopAux proc newId fA fS (validEntries note) 1 store).2).map
          (fun it => (it.index, it.url, it.label, it.group)) =
        (List.enumFrom 1 (validEntries note)).map
          (fun p => (p.1, p.2.url, p.2.label, p.2.group))) := by
  have hinv := fun es => groupEntries_fold_invariant es [] []
    (by rfl) (by intro p hp; cases hp)
  refine ⟨?_, ?_, ?_, ?_⟩
  · intro es
    have h := (hinv es).2.2
    simpa [groupEntries] using h
  · intro es
    have h := (hinv es).1
    simpa [groupEntries] using h
  · intro es p hp
    have h := (hinv es).2.1 p (by simpa [groupEntries] using hp)
    simpa using h
  · intro note proc newId fA fS store
    exact runLoopAux_skeleton proc newId fA fS (validEntries note) 1 store

/-- Witness for C8 at a concrete interleaved-group index: the first
group carries exactly the submission-ordered entries of its key. -/
theorem index_groups_amended_witness :
    [ixe 1 "u1" "g1", ixe 3 "u3" "g1"] = esW.filter (fun x => keyOf x = "g1") :=
  index_groups_amended.2.2.1 esW ("g1", [ixe 1 "u1" "g1", ixe 3 "u3" "g1"]) (by decide)

/-! ### Claim C9 -/

/-- Claim C9: for every configuration, database and progress callback
value (including none), constructing a Worker raises a TypeError,
because Worker passes the progress_cb keyword to the media Orchestrator
whose constructor accepts only cfg and db; consequently the batch
runner, which constructs the Worker outside the per-item error
isolation, fails with that TypeError for every note with at least one
valid reference. -/
theorem worker_construction_raises_type_error :
    (∀ (cfg : ConfigM) (db : JobStore) (cb : Option String),
      workerInit cfg db cb = .error (.typeError workerInitTypeError)) ∧
    (∀ (cfg : ConfigM) (store : JobStore) (note : List NEntry) (fromStart : Bool)
      (proc : Nat → String → ProcBehavior) (newId : Nat → String)
      (findArtifact : String → Option String),
      validEntries note ≠ [] →
      batchRunFaithful cfg store note fromStart proc newId findArtifact =
        .error (.typeError workerInitTypeError)) := by
  constructor
  · intro cfg db cb
    rfl
  · intro cfg store note fromStart proc newId findArtifact hvalid
    have hini : workerInit cfg store none = .error (.typeError workerInitTypeError) := rfl
    simp [batchRunFaithful, hvalid, hini]

/-- Witness for C9: a batch of three valid telegram references dies at
the Worker construction. -/
theorem worker_construction_raises_type_error_witness :
    batchRunFaithful cfgW [] noteThreeTg false procSecondRaises newIdSeq findArtifactNone =
      .error (.typeError workerInitTypeError) :=
  worker_construction_raises_type_error.2 cfgW [] noteThreeTg false procSecondRaises
    newIdSeq findArtifactNone (by decide)

/-! ### Claim C10 -/

/-- Claim C10: the Database class defines no create_external_job
method, so creating a job for a new external reference ends in an
AttributeError instead of an insert: the batch runner records it as the
item failure without touching the store or calling the worker, and the
CLI job-creation path propagates it; only telegram-link jobs are
created, through Database.create_job. -/
theorem create_external_job_missing :
    (databaseMethods.contains "create_external_job" = false) ∧
    (databaseMethods.contains "create_job" = true) ∧
    (dbMethodLookup "create_external_job" =
      .error (.attributeError attributeErrorCreateExternalJob)) ∧
    (∀ (store : JobStore) (e : NEntry) (i : Nat) (n : String)
      (proc : String → ProcBehavior) (fA : String → Option String),
      dbGetJobByUrl store e.url = none → e.link = some LinkKind.external →
      processEntry store e i false n proc fA =
        (store, [BEv.dbCreateExternalAttempt],
         { index := i, url := e.url, label := e.label, group := e.group,
           success := false, jobId := none,
           error := some attributeErrorCreateExternalJob, artifactDir := none })) ∧
    (∀ (store : JobStore) (url n : String),
      cliCreateJob store url true n =
        .error (.attributeError attributeErrorCreateExternalJob)) ∧
    (∀ (store : JobStore) (url n : String) (s' : JobStore) (j : String),
      cliCreateJob store url false n = .ok (s', j) → s'.length = store.length + 1) := by
  refine ⟨by decide, by decide, by decide, ?_, ?_, ?_⟩
  · intro store e i n proc fA hurl hlink
    simp [processEntry, hurl, hlink]
  · intro store url n
    have h : dbMethodLookup "create_external_job" =
        .error (.attributeError attributeErrorCreateExternalJob) := by decide
    simp [cliCreateJob, h]
  · intro store url n s' j h
    simp only [cliCreateJob, dbCreateJob] at h
    rcases hx : store.any (fun jr => jr.url = url) with _ | _
    · rw [hx] at h
      simp at h
      rw [← h.1]
      simp
    · rw [hx] at h
      simp at h

/-- Witness for C10: the first submission of a fresh external reference
through the batch path leaves the store empty and records the
AttributeError on the item. -/
theorem create_external_job_missing_witness :
    processEntry [] externalEntryW 1 false "job-1" procOkW findArtifactNone =
      ([], [BEv.dbCreateExternalAttempt],
       { index := 1, url := externalEntryW.url, label := externalEntryW.label,
         group := externalEntryW.group, success := false, jobId := none,
         error := some attributeErrorCreateExternalJob, artifactDir := none }) :=
  create_external_job_missing.2.2.2.1 [] externalEntryW 1 "job-1" procOkW findArtifactNone
    rfl rfl

end TgAssistant
